import Mathlib

/-!
Verification of the instruction-to-schema inference engine of
`src/server/ai.py` (Schema_Gui_Editor).

The embedding models Python JSON-like values as the inductive type `Json`.
Python `dict`s are modelled as insertion-ordered association lists
(`List (String × Json)`), which matches CPython semantics: insertion
order is preserved, assignment to an existing key keeps its position,
assignment to a new key appends.  Fallible Python code (attribute errors
on non-dict values, `TypeError` on unhashable keys) is modelled with
`Except String`.
-/

set_option autoImplicit false

namespace SchemaGui

/-- A Python/JSON value.  Numbers are modelled as `Int` (the source only
ever manipulates integer-valued numbers). -/
inductive Json where
  | null
  | bool (b : Bool)
  | num (n : Int)
  | str (s : String)
  | arr (xs : List Json)
  | obj (kvs : List (String × Json))

/-- A Python dict with string keys: an insertion-ordered association list. -/
abbrev Frag := List (String × Json)

mutual

/-- Structural (Python `==`) equality of JSON values. -/
def Json.beq : Json → Json → Bool
  | .null, .null => true
  | .bool a, .bool b => a == b
  | .num a, .num b => a == b
  | .str a, .str b => a == b
  | .arr xs, .arr ys => Json.beqArr xs ys
  | .obj xs, .obj ys => Json.beqObj xs ys
  | _, _ => false

def Json.beqArr : List Json → List Json → Bool
  | [], [] => true
  | x :: xs, y :: ys => Json.beq x y && Json.beqArr xs ys
  | _, _ => false

def Json.beqObj : List (String × Json) → List (String × Json) → Bool
  | [], [] => true
  | (k, v) :: xs, (l, w) :: ys => k == l && Json.beq v w && Json.beqObj xs ys
  | _, _ => false

end

/-- Python truthiness (`bool(x)`) of a JSON value. -/
def Json.toBool : Json → Bool
  | .null => false
  | .bool b => b
  | .num n => n != 0
  | .str s => s != ""
  | .arr xs => !xs.isEmpty
  | .obj kvs => !kvs.isEmpty

/-- Whether a JSON value is hashable in Python (usable as a dict key). -/
def Json.hashableB : Json → Bool
  | .arr _ => false
  | .obj _ => false
  | _ => true

/-- `d.get(k)` / `d[k]` lookup: first (and in a real dict, only) binding. -/
def lookupJ (k : String) : Frag → Option Json
  | [] => none
  | (k2, v) :: rest => if k2 = k then some v else lookupJ k rest

/-- `d[k] = v`: replace the value at the key's existing position, or
append when the key is absent (CPython dict assignment). -/
def insertJ (k : String) (v : Json) : Frag → Frag
  | [] => [(k, v)]
  | (k2, w) :: rest => if k2 = k then (k, v) :: rest else (k2, w) :: insertJ k v rest

/-- `d.setdefault(k, v)`. -/
def setdefaultJ (k : String) (v : Json) (l : Frag) : Frag :=
  if (lookupJ k l).isSome then l else l ++ [(k, v)]

/-- `d.pop(k, None)`: remove the binding for `k`. -/
def popJ (k : String) : Frag → Frag
  | [] => []
  | (k2, w) :: rest => if k2 = k then popJ k rest else (k2, w) :: popJ k rest

/-- `base.update(upd)`: fold dict assignment of `upd`'s entries over `base`. -/
def updateJ (base upd : Frag) : Frag :=
  upd.foldl (fun acc kv => insertJ kv.1 kv.2 acc) base

/-! ## Schema Normalizer: `_coerce_draft07` (src/server/ai.py lines 160-188) -/

/-- The six primitives allowed for a property `type`
(tuple on line 175 of the source, minus the `None` member). -/
def allowedTypeName (s : String) : Bool :=
  s == "string" || s == "number" || s == "integer" || s == "boolean" ||
    s == "array" || s == "object"

/-- Python `t in ("string","number","integer","boolean","array","object", None)`
where `t = spec.get("type")`: an absent key yields `None`, which is a member
of the tuple, as is an explicit JSON `null`. -/
def isAllowedType : Option Json → Bool
  | none => true
  | some Json.null => true
  | some (Json.str s) => allowedTypeName s
  | some _ => false

/-- The five primitives allowed for `items.type` (line 182): no `None`
member and no `"array"`. -/
def allowedItemTypeName (s : String) : Bool :=
  s == "string" || s == "number" || s == "integer" || s == "boolean" || s == "object"

/-- Python `items.get("type") in ("string","number","integer","boolean","object")`. -/
def isAllowedItemType : Option Json → Bool
  | some (Json.str s) => allowedItemTypeName s
  | _ => false

/-- Python `t == "array"` for `t = spec.get("type")` (only the string
`"array"` compares equal). -/
def isArrayTypeVal : Option Json → Bool
  | some (Json.str s) => s == "array"
  | _ => false

/-- `items = spec.get("items") or {}` followed by
`if not isinstance(items, dict): items = {}` (lines 179-181): any
non-dict (or falsy) value collapses to an empty dict. -/
def objEntries : Json → Frag
  | Json.obj kvs => kvs
  | _ => []

/-- Lines 182-183: coerce `items["type"]` into the allowed item set. -/
def itemsFixed (its : Frag) : Frag :=
  if isAllowedItemType (lookupJ "type" its) then its
  else insertJ "type" (Json.str "string") its

/-- Lines 178-184: coercion of `items` for an array-typed property. -/
def sanitizeItems (spec : Frag) : Frag :=
  insertJ "items"
    (Json.obj (itemsFixed (objEntries ((lookupJ "items" spec).getD Json.null)))) spec

/-- Lines 174-177: `t = spec.get("type"); if t not in (...): spec["type"] = "string"`. -/
def typeFixed (spec : Frag) : Frag :=
  if isAllowedType (lookupJ "type" spec) then spec
  else insertJ "type" (Json.str "string") spec

/-- Lines 178-184.  Python tests the local `t`, which at this point is the
original type when that was allowed and `"string"` otherwise; so
`t == "array"` holds exactly when the ORIGINAL `spec.get("type")` was the
string `"array"` (an allowed type, hence untouched by `typeFixed`). -/
def arrayFixed (spec : Frag) : Frag :=
  if isArrayTypeVal (lookupJ "type" spec) then sanitizeItems (typeFixed spec)
  else typeFixed spec

/-- Lines 185-187: strip `uniqueItems` from any spec whose (current)
type is not `"array"`. -/
def uniqFixed (s : Frag) : Frag :=
  if (lookupJ "uniqueItems" s).isSome && !(isArrayTypeVal (lookupJ "type" s)) then
    popJ "uniqueItems" s
  else s

/-- Lines 174-187: the per-property sanitization body of the loop in
`_coerce_draft07` (type whitelisting, array item repair, `uniqueItems`
stripping), acting on one property spec dict. -/
def sanitizeSpec (spec : Frag) : Frag :=
  uniqFixed (arrayFixed spec)

/-- Line 172-173: non-dict property specs are skipped (`continue`);
dict specs are sanitized in place. -/
def sanitizeEntry (kv : String × Json) : String × Json :=
  match kv.2 with
  | Json.obj spec => (kv.1, Json.obj (sanitizeSpec spec))
  | _ => kv

/-- The three invariants `sanitizeSpec` establishes on its output. -/
def specSane (s : Frag) : Prop :=
  isAllowedType (lookupJ "type" s) = true ∧
  (isArrayTypeVal (lookupJ "type" s) = true →
    ∃ its, lookupJ "items" s = some (Json.obj its) ∧
      isAllowedItemType (lookupJ "type" its) = true) ∧
  ((lookupJ "uniqueItems" s).isSome = true → isArrayTypeVal (lookupJ "type" s) = true)

/-- Lines 163-168 of `_coerce_draft07`: default the five structural keys
(`setdefault` for the first four; `if "additionalProperties" not in d:
d["additionalProperties"] = False` is behaviourally `setdefault`). -/
def withDefaults (defn : Frag) : Frag :=
  setdefaultJ "additionalProperties" (Json.bool false)
    (setdefaultJ "primaryKey" (Json.arr [])
      (setdefaultJ "required" (Json.arr [])
        (setdefaultJ "properties" (Json.obj [])
          (setdefaultJ "type" (Json.str "object") defn))))

/-- `_coerce_draft07` (lines 160-188).  `d = dict(defn or {})` copies the
top level; the structural keys are defaulted; then every dict-valued
property spec is sanitized in place (the loop iterates a snapshot of
`d["properties"].items()` and only mutates the spec dicts, i.e. a map
over the values).  When the value under `"properties"` is not a dict,
Python raises `AttributeError` at `d["properties"].items()` (line 171);
this is the `.error` branch. -/
def coerce_draft07 (defn : Frag) : Except String Frag :=
  match lookupJ "properties" (withDefaults defn) with
  | some (Json.obj props) =>
    .ok (insertJ "properties" (Json.obj (props.map sanitizeEntry)) (withDefaults defn))
  | _ => .error "AttributeError: object has no attribute items"

/-! ## Merge Engine: `_merge_extend` (src/server/ai.py lines 190-202) -/

/-- Python `list(x)`: materialize an iterable; raises `TypeError` on
non-iterables.  Iterating a string yields its one-character strings;
iterating a dict yields its keys. -/
def pyIter : Json → Except String (List Json)
  | Json.arr xs => .ok xs
  | Json.str s => .ok (s.toList.map (fun c => Json.str (String.singleton c)))
  | Json.obj kvs => .ok (kvs.map (fun p => Json.str p.1))
  | _ => .error "TypeError: object is not iterable"

/-- First-occurrence deduplication, the order `dict.fromkeys` keeps. -/
def dedupFirst (l : List Json) : List Json :=
  l.foldl (fun acc x => if acc.any (fun y => Json.beq y x) then acc else acc ++ [x]) []

/-- `_uniq` (lines 194-195): `list(dict.fromkeys([x for x in a if x]))`.
The comprehension drops falsy entries; `dict.fromkeys` deduplicates
keeping first-occurrence order and raises `TypeError` when a kept entry
is unhashable (a list or dict). -/
def uniq (a : List Json) : Except String (List Json) :=
  if (a.filter Json.toBool).all Json.hashableB then
    .ok (dedupFirst (a.filter Json.toBool))
  else .error "TypeError: unhashable type"

/-- `suggestion.get("properties", {})` as the argument of `update`
(line 193): absent means `{}`; a present non-dict makes `update` raise.
(Python `update` would also accept an iterable of key/value pairs; the
suggestion reaching this call went through `_coerce_draft07`, whose
output always carries a dict here, so that exotic case is collapsed
into the error branch.) -/
def suggPropsOf (suggestion : Frag) : Except String Frag :=
  match lookupJ "properties" suggestion with
  | none => .ok []
  | some (Json.obj kvs) => .ok kvs
  | some _ => .error "TypeError: update argument is not a dict"

/-- Lines 196-197 applied to one key:
`out[key] = _uniq(list(out.get(key, [])) + list(suggestion.get(key, [])))`. -/
def unionKey (key : String) (out suggestion : Frag) : Except String Frag :=
  match pyIter ((lookupJ key out).getD (Json.arr [])) with
  | .error e => .error e
  | .ok exL =>
    match pyIter ((lookupJ key suggestion).getD (Json.arr [])) with
    | .error e => .error e
    | .ok sgL =>
      match uniq (exL ++ sgL) with
      | .error e => .error e
      | .ok u => .ok (insertJ key (Json.arr u) out)

/-- Lines 198-199: `if "additionalProperties" in suggestion:
out["additionalProperties"] = suggestion["additionalProperties"]`. -/
def addPropsStep (suggestion out : Frag) : Frag :=
  match lookupJ "additionalProperties" suggestion with
  | some v => insertJ "additionalProperties" v out
  | none => out

/-- Lines 200-201: `if not out.get("title") and suggestion.get("title"):
out["title"] = suggestion["title"]`.  (In the taken branch the
suggestion's title is truthy, hence present; the `none` arm is
unreachable and modelled as the identity.) -/
def titleStep (suggestion out : Frag) : Frag :=
  if !(((lookupJ "title" out).getD Json.null).toBool) &&
      ((lookupJ "title" suggestion).getD Json.null).toBool then
    match lookupJ "title" suggestion with
    | some v => insertJ "title" v out
    | none => out
  else out

/-- The value of `existing` AFTER `_merge_extend` returns.

`out = dict(existing)` (line 191) copies only the top level; when
`existing` has a `"properties"` key, the dict stored there is shared
between `out` and `existing`, so `out["properties"].update(...)`
(line 193) mutates the entity stored in the caller's schema context in
place.  When `existing` lacks the key, `out.setdefault` installs a fresh
dict into `out` only and `existing` is untouched. -/
def existingAfterOf (existing : Frag) (newProps : Frag) : Frag :=
  match lookupJ "properties" existing with
  | some (Json.obj _) => insertJ "properties" (Json.obj newProps) existing
  | _ => existing

/-- `_merge_extend` (lines 190-202), with its heap effect made explicit:
returns `(out, existingAfter)` where `out` is the function's return value
and `existingAfter` is the value of the `existing` argument after the
call (see `existingAfterOf`). -/
def merge_extend (existing suggestion : Frag) : Except String (Frag × Frag) :=
  match lookupJ "properties" (setdefaultJ "properties" (Json.obj []) existing) with
  | some (Json.obj outProps) =>
    match suggPropsOf suggestion with
    | .error e => .error e
    | .ok suggProps =>
      match unionKey "required"
          (insertJ "properties" (Json.obj (updateJ outProps suggProps))
            (setdefaultJ "properties" (Json.obj []) existing)) suggestion with
      | .error e => .error e
      | .ok out2 =>
        match unionKey "primaryKey" out2 suggestion with
        | .error e => .error e
        | .ok out3 =>
          .ok (titleStep suggestion (addPropsStep suggestion out3),
            existingAfterOf existing (updateJ outProps suggProps))
  | _ => .error "AttributeError: no attribute update"

/-! ## A small backtracking regex engine

`_rule_based_from_text` drives five `re` patterns.  Each is translated
below into a small AST (`RE`) whose matcher reproduces Python `re`
semantics for the constructs those patterns use: single-character
classes, greedy `*`/`+` over a class (with backtracking), literals
(optionally case-insensitive, ASCII), alternation of literals, word
boundaries, capture groups and concatenation.  `findIter` reproduces
`re.finditer`: leftmost match, then continue scanning at the match end.
-/

/-- Python `\w` (ASCII range; the texts handled here are ASCII). -/
def pyIsWord (c : Char) : Bool := c.isAlpha || c.isDigit || c == '_'

/-- Python `\s`: space, tab, newline, carriage return, vertical tab, form feed. -/
def pyIsSpace (c : Char) : Bool :=
  c == ' ' || c == '\t' || c == '\n' || c == '\r' || c == '\x0b' || c == '\x0c'

inductive RE where
  | cls (f : Char → Bool)
  | starCls (f : Char → Bool)
  | plusCls (f : Char → Bool)
  | lit (s : String) (ci : Bool)
  | lits (ss : List String) (ci : Bool)
  | wordB
  | group (n : Nat) (r : RE)
  | seq (a b : RE)

abbrev Caps := List (Nat × String)

def charAt? (cs : List Char) (i : Nat) : Option Char := (cs.drop i).head?

def isWordAt (cs : List Char) (i : Nat) : Bool :=
  match charAt? cs i with
  | some c => pyIsWord c
  | none => false

/-- Length of the maximal run of `f`-characters starting at `i`. -/
def runLen (f : Char → Bool) : List Char → Nat
  | [] => 0
  | c :: rest => if f c then runLen f rest + 1 else 0

def runLenFrom (f : Char → Bool) (cs : List Char) (i : Nat) : Nat := runLen f (cs.drop i)

def startsWithCI : List Char → List Char → Bool → Bool
  | _, [], _ => true
  | [], _ :: _, _ => false
  | c :: cs, d :: ds, ci =>
    (if ci then c.toLower == d.toLower else c == d) && startsWithCI cs ds ci

def extractL (cs : List Char) (i j : Nat) : String := String.mk ((cs.drop i).take (j - i))

/-- Greedy repetition with backtracking: try consuming `m` characters,
then `m - 1`, ..., down to `mn`, resuming the continuation each time. -/
def greedyTry (k : Nat → Option (Nat × Caps)) (pos mn : Nat) : Nat → Option (Nat × Caps)
  | 0 => if mn = 0 then k pos else none
  | m + 1 =>
    if m + 1 < mn then none
    else
      match k (pos + m + 1) with
      | some r => some r
      | none => greedyTry k pos mn m

/-- CPS backtracking matcher: attempt to match `r` at `pos`, calling the
continuation with the end position and captures accumulated so far. -/
def matchRE : RE → List Char → Nat → Caps → (Nat → Caps → Option (Nat × Caps)) →
    Option (Nat × Caps)
  | .cls f, cs, pos, caps, k =>
    match charAt? cs pos with
    | some c => if f c then k (pos + 1) caps else none
    | none => none
  | .starCls f, cs, pos, caps, k =>
    greedyTry (fun p => k p caps) pos 0 (runLenFrom f cs pos)
  | .plusCls f, cs, pos, caps, k =>
    greedyTry (fun p => k p caps) pos 1 (runLenFrom f cs pos)
  | .lit s ci, cs, pos, caps, k =>
    if startsWithCI (cs.drop pos) s.toList ci then k (pos + s.toList.length) caps else none
  | .lits ss ci, cs, pos, caps, k =>
    ss.foldr (fun s acc =>
      match (if startsWithCI (cs.drop pos) s.toList ci then
          k (pos + s.toList.length) caps else none) with
      | some r => some r
      | none => acc) none
  | .wordB, cs, pos, caps, k =>
    if isWordAt cs pos != (if pos = 0 then false else isWordAt cs (pos - 1)) then
      k pos caps
    else none
  | .group n r, cs, pos, caps, k =>
    matchRE r cs pos caps (fun p2 c2 => k p2 ((n, extractL cs pos p2) :: c2))
  | .seq a b, cs, pos, caps, k =>
    matchRE a cs pos caps (fun p c => matchRE b cs p c k)

structure MatchData where
  ms : Nat
  me : Nat
  caps : Caps

def matchAtPos (r : RE) (cs : List Char) (i : Nat) : Option (Nat × Caps) :=
  matchRE r cs i [] (fun p c => some (p, c))

/-- `re.finditer` driver: scan start positions left to right; on a match
emit it and resume at its end position. -/
def findIterAux (r : RE) (cs : List Char) : Nat → Nat → List MatchData
  | _, 0 => []
  | i, fuel + 1 =>
    if i > cs.length then []
    else
      match matchAtPos r cs i with
      | some (e, caps) => ⟨i, e, caps⟩ :: findIterAux r cs (if i < e then e else i + 1) fuel
      | none => findIterAux r cs (i + 1) fuel

def findIter (r : RE) (s : String) : List MatchData :=
  findIterAux r s.toList 0 (s.toList.length + 1)

/-- `m.group(n)` (in these patterns every group participates in any match). -/
def capOf (m : MatchData) (n : Nat) : String :=
  ((m.caps.find? (fun p => p.1 == n)).map Prod.snd).getD ""

/-- `re.findall` for a pattern with no groups: full match strings. -/
def findAllStrs (r : RE) (s : String) : List String :=
  (findIter r s).map (fun m => extractL s.toList m.ms m.me)

/-- `re.search(...) is not None`. -/
def reSearchB (r : RE) (s : String) : Bool := !(findIter r s).isEmpty

/-! ### The five patterns of `_rule_based_from_text` -/

/-- Line 103: `(\w+)\s+enum:\s*([^\n;]+)` with `re.I`. -/
def reEnum : RE :=
  .seq (.group 1 (.plusCls pyIsWord))
    (.seq (.plusCls pyIsSpace)
      (.seq (.lit "enum:" true)
        (.seq (.starCls pyIsSpace)
          (.group 2 (.plusCls (fun c => c != '\n' && c != ';'))))))

/-- Line 110: `(\w+)\s*:\s*([A-Za-z][\w\s,\|\-]*)` (case-sensitive). -/
def reArr : RE :=
  .seq (.group 1 (.plusCls pyIsWord))
    (.seq (.starCls pyIsSpace)
      (.seq (.lit ":" false)
        (.seq (.starCls pyIsSpace)
          (.group 2 (.seq (.cls Char.isAlpha)
            (.starCls (fun c =>
              pyIsWord c || pyIsSpace c || c == ',' || c == '|' || c == '-')))))))

/-- Line 124: `\bemail\b` with `re.I`. -/
def reEmailW : RE := .seq .wordB (.seq (.lit "email" true) .wordB)

/-- Line 126: `\b\w+_at\b`. -/
def reAt : RE := .seq .wordB (.seq (.plusCls pyIsWord) (.seq (.lit "_at" false) .wordB))

/-- Line 130: `FK:\s*(\w+)\s*[->→]\s*(\w+)\.(\w+)` with `re.I`.  Note the
arrow is the character class `[->→]` (one of `-`, `>`, `→`), not the
two-character sequence `->`. -/
def reFk : RE :=
  .seq (.lit "FK:" true)
    (.seq (.starCls pyIsSpace)
      (.seq (.group 1 (.plusCls pyIsWord))
        (.seq (.starCls pyIsSpace)
          (.seq (.cls (fun c => c == '-' || c == '>' || c == '→'))
            (.seq (.starCls pyIsSpace)
              (.seq (.group 2 (.plusCls pyIsWord))
                (.seq (.lit "." false)
                  (.group 3 (.plusCls pyIsWord)))))))))

/-- Line 142: `\b(\w+)\s*\((string|number|integer|boolean)\)` with `re.I`. -/
def reTyped : RE :=
  .seq .wordB
    (.seq (.group 1 (.plusCls pyIsWord))
      (.seq (.starCls pyIsSpace)
        (.seq (.lit "(" false)
          (.seq (.group 2 (.lits ["string", "number", "integer", "boolean"] true))
            (.lit ")" false)))))

/-! ## Python string helpers -/

/-- `str.strip()`. -/
def pyStrip (s : String) : String :=
  String.mk (((s.toList.dropWhile pyIsSpace).reverse.dropWhile pyIsSpace).reverse)

/-- `str.lower()` (ASCII). -/
def pyLower (s : String) : String := String.mk (s.toList.map Char.toLower)

/-- `str.capitalize()`: first character uppercased, the rest lowercased. -/
def pyCapitalize (s : String) : String :=
  match s.toList with
  | [] => ""
  | c :: rest => String.mk (c.toUpper :: rest.map Char.toLower)

/-- `re.split(r"[,\|]", s)`: split on every comma or pipe, keeping
empty pieces. -/
def splitCP : List Char → List (List Char)
  | [] => [[]]
  | c :: rest =>
    match splitCP rest with
    | [] => [[]]
    | g :: gs => if c == ',' || c == '|' then [] :: g :: gs else (c :: g) :: gs

def splitCommaPipe (s : String) : List String :=
  (splitCP s.toList).map (fun g => String.mk g)

/-- `[v.strip() for v in re.split(r"[,\|]", s) if v.strip()]`. -/
def splitStripNonempty (s : String) : List String :=
  ((splitCommaPipe s).map pyStrip).filter (fun v => v != "")

def startsWithL : List Char → List Char → Bool
  | _, [] => true
  | [], _ :: _ => false
  | c :: cs, d :: ds => c == d && startsWithL cs ds

/-- Substring containment (`sub in hay`). -/
def containsL : List Char → List Char → Bool
  | [], sub => sub.isEmpty
  | c :: rest, sub => startsWithL (c :: rest) sub || containsL rest sub

/-- `s.endswith("s")`. -/
def strEndsWithS (s : String) : Bool :=
  match s.toList.getLast? with
  | some c => c == 's'
  | none => false

/-- `s[:-1]`. -/
def dropLast1 (s : String) : String := String.mk s.toList.dropLast

/-! ## Field Extractor: `_rule_based_from_text` (lines 84-158) -/

def enumSpecOf (values : List String) : Json :=
  Json.obj [("type", Json.str "string"), ("enum", Json.arr (values.map Json.str))]

/-- Lines 103-107: the enum pass assigns `props[field]` unconditionally. -/
def enumStep (acc : Frag) (m : MatchData) : Frag :=
  if splitStripNonempty (capOf m 2) ≠ [] then
    insertJ (capOf m 1) (enumSpecOf (splitStripNonempty (capOf m 2))) acc
  else acc

def passEnum (t : String) (props : Frag) : Frag :=
  (findIter reEnum t).foldl enumStep props

def arraySpecOf (cands : List String) : Json :=
  Json.obj [("type", Json.str "array"),
    ("items", Json.obj [("type", Json.str "string"), ("enum", Json.arr (cands.map Json.str))])]

/-- Lines 110-117: the delimited-list pass skips segments containing the
word "enum" and only assigns fields not already present. -/
def arrStep (acc : Frag) (m : MatchData) : Frag :=
  if containsL (pyLower (capOf m 2)).toList "enum".toList then acc
  else if 2 ≤ (splitStripNonempty (capOf m 2)).length &&
      (lookupJ (capOf m 1) acc).isNone then
    insertJ (capOf m 1) (arraySpecOf (splitStripNonempty (capOf m 2))) acc
  else acc

def passArrays (t : String) (props : Frag) : Frag :=
  (findIter reArr t).foldl arrStep props

def emailSpec : Json := Json.obj [("type", Json.str "string"), ("format", Json.str "email")]

def dateTimeSpec : Json :=
  Json.obj [("type", Json.str "string"), ("format", Json.str "date-time")]

def hintStep (acc : Frag) (name : String) : Frag := setdefaultJ name dateTimeSpec acc

/-- Lines 119-127: format hints.  `upsert` is `setdefault`: it never
overwrites an existing field. -/
def passHints (t : String) (props : Frag) : Frag :=
  (findAllStrs reAt t).foldl hintStep
    (if reSearchB reEmailW t then setdefaultJ "email" emailSpec props else props)

def fkSpecOf (table col : String) : Json :=
  Json.obj [
    ("type", Json.str "string"),
    ("format", Json.str "uuid"),
    ("refTable", Json.str table),
    ("refColumn", Json.str col),
    ("$ref", Json.str ("#/definitions/" ++ table ++ "/properties/" ++ col)),
    ("relationshipName", Json.str (if strEndsWithS table then dropLast1 table else table))]

/-- Lines 130-139: the FK pass assigns `props[field]` unconditionally
(it can overwrite a field set by an earlier pass). -/
def fkStep (acc : Frag) (m : MatchData) : Frag :=
  insertJ (capOf m 1) (fkSpecOf (capOf m 2) (capOf m 3)) acc

def passFk (t : String) (props : Frag) : Frag :=
  (findIter reFk t).foldl fkStep props

/-- Lines 142-144: the typed-literal pass uses `setdefault`. -/
def typedStep (acc : Frag) (m : MatchData) : Frag :=
  setdefaultJ (capOf m 1) (Json.obj [("type", Json.str (pyLower (capOf m 2)))]) acc

def passTyped (t : String) (props : Frag) : Frag :=
  (findIter reTyped t).foldl typedStep props

/-- The five passes in source order over the accumulated property map. -/
def extractProps (t : String) (props0 : Frag) : Frag :=
  passTyped t (passFk t (passHints t (passArrays t (passEnum t props0))))

structure SuggResult where
  mode : String
  definition_key : String
  definition : Frag

/-- Lines 88-90: `t = (text or "").strip()`;
`key = (target or "entity").strip() if mode == "extend_entity" else "entity"`;
`title = key[:-1].capitalize() if key.endswith("s") else key.capitalize()`. -/
def resolvedKey (mode : String) (target : Option String) : String :=
  if mode == "extend_entity" then
    pyStrip (match target with
      | some s => if s ≠ "" then s else "entity"
      | none => "entity")
  else "entity"

def titleOf (key : String) : String :=
  if strEndsWithS key then pyCapitalize (dropLast1 key) else pyCapitalize key

/-- `_rule_based_from_text` (lines 84-158). -/
def rule_based_from_text (text : String) (mode : String) (target : Option String) :
    SuggResult :=
  { mode := mode
    definition_key := resolvedKey mode target
    definition :=
      [("type", Json.str "object"),
       ("title", Json.str (titleOf (resolvedKey mode target))),
       ("properties", Json.obj (extractProps (pyStrip text)
         (if mode == "new_definition" then
           [("id", Json.obj [("type", Json.str "string"), ("format", Json.str "uuid")])]
          else []))),
       ("required", Json.arr (if mode == "new_definition" then [Json.str "id"] else [])),
       ("primaryKey", Json.arr (if mode == "new_definition" then [Json.str "id"] else [])),
       ("additionalProperties", Json.bool false)] }

/-! ## `suggest_definition` (lines 246-259) -/

/-- Lines 251-257 restricted to an extend-mode request whose target
exists as a dict in the schema context: the candidate definition
(whatever produced it) is normalized by `_coerce_draft07` and then
merged into the existing entity by `_merge_extend`; the merge result is
returned as the response's definition WITHOUT a further normalization
pass. -/
def extend_pipeline (candidate existing : Frag) : Except String Frag :=
  match coerce_draft07 candidate with
  | .error e => .error e
  | .ok d =>
    match merge_extend existing d with
    | .error e => .error e
    | .ok (m, _) => .ok m

/-- `suggest_definition` (lines 246-259) with the heap effect on the
schema context made explicit; returns the response and the value of
`schema_ctx` after the call.

The external generator `_call_ai` (lines 204-206) returns `None`
whenever `AI_API_BASE`/`AI_API_KEY` are unset, which is the modelled
configuration; the deterministic fallback `_rule_based_from_text` then
supplies the candidate (line 248-249).  The merge branch is taken only
when `mode == "extend_entity"`, `target` is truthy, and
`schema_ctx.get("definitions", {}).get(target)` is a dict (line 255);
`.get` on a present non-dict `"definitions"` value raises
`AttributeError`. -/
def suggest_definition_pair (instruction : String) (mode : String)
    (schema_ctx : Frag) (target : Option String) :
    Except String (SuggResult × Frag) :=
  match coerce_draft07 (rule_based_from_text instruction mode target).definition with
  | .error e => .error e
  | .ok d =>
    if mode == "extend_entity" then
      match target with
      | some tg =>
        if tg ≠ "" then
          match lookupJ "definitions" schema_ctx with
          | some (Json.obj defs) =>
            (match lookupJ tg defs with
            | some (Json.obj existing) =>
              (match merge_extend existing d with
              | .error e => .error e
              | .ok (m, exAfter) =>
                .ok ({ rule_based_from_text instruction mode target with definition := m },
                  insertJ "definitions" (Json.obj (insertJ tg (Json.obj exAfter) defs))
                    schema_ctx))
            | _ =>
              .ok ({ rule_based_from_text instruction mode target with definition := d },
                schema_ctx))
          | none =>
            .ok ({ rule_based_from_text instruction mode target with definition := d },
              schema_ctx)
          | some _ => .error "AttributeError: object has no attribute get"
        else
          .ok ({ rule_based_from_text instruction mode target with definition := d },
            schema_ctx)
      | none =>
        .ok ({ rule_based_from_text instruction mode target with definition := d },
          schema_ctx)
    else
      .ok ({ rule_based_from_text instruction mode target with definition := d },
        schema_ctx)

/-- The value transformation performed on one property entry. -/
def sanitizeVal (v : Json) : Json :=
  match v with
  | Json.obj spec => Json.obj (sanitizeSpec spec)
  | _ => v

/-! ## Theorems -/

@[simp] theorem lookupJ_nil (k : String) : lookupJ k [] = none := rfl

theorem lookupJ_insertJ_self (k : String) (v : Json) (l : Frag) :
    lookupJ k (insertJ k v l) = some v := by
  induction l with
  | nil => simp [insertJ, lookupJ]
  | cons p rest ih =>
    obtain ⟨k2, w⟩ := p
    by_cases h : k2 = k
    · simp [insertJ, lookupJ, h]
    · simp [insertJ, lookupJ, h, ih]

theorem lookupJ_insertJ_ne (k k2 : String) (v : Json) (l : Frag) (h : k2 ≠ k) :
    lookupJ k (insertJ k2 v l) = lookupJ k l := by
  induction l with
  | nil => simp [insertJ, lookupJ, h]
  | cons p rest ih =>
    obtain ⟨k3, w⟩ := p
    simp only [insertJ]
    by_cases h2 : k3 = k2
    · rw [if_pos h2]
      have h3 : k3 ≠ k := by rw [h2]; exact h
      simp only [lookupJ]
      rw [if_neg h, if_neg h3]
    · rw [if_neg h2]
      simp only [lookupJ]
      by_cases h3 : k3 = k
      · rw [if_pos h3, if_pos h3]
      · rw [if_neg h3, if_neg h3]
        exact ih

theorem insertJ_lookupJ_self (k : String) (v : Json) (l : Frag)
    (h : lookupJ k l = some v) : insertJ k v l = l := by
  induction l with
  | nil => simp [lookupJ] at h
  | cons p rest ih =>
    obtain ⟨k2, w⟩ := p
    by_cases h2 : k2 = k
    · subst h2
      simp [lookupJ] at h
      simp [insertJ, h]
    · simp [lookupJ, h2] at h
      simp [insertJ, h2, ih h]

theorem lookupJ_append (k : String) (l1 l2 : Frag) :
    lookupJ k (l1 ++ l2) = ((lookupJ k l1).elim (lookupJ k l2) some) := by
  induction l1 with
  | nil => simp [lookupJ]
  | cons p rest ih =>
    obtain ⟨k2, w⟩ := p
    by_cases h : k2 = k
    · simp [lookupJ, h]
    · simp [lookupJ, h, ih]

theorem lookupJ_setdefaultJ_isSome (k : String) (v : Json) (l : Frag) :
    (lookupJ k (setdefaultJ k v l)).isSome = true := by
  unfold setdefaultJ
  cases hl : lookupJ k l with
  | some w => simp [hl]
  | none => simp [hl, lookupJ_append, lookupJ]

theorem setdefaultJ_of_present (k : String) (v : Json) (l : Frag)
    (h : (lookupJ k l).isSome = true) : setdefaultJ k v l = l := by
  simp [setdefaultJ, h]

theorem lookupJ_setdefaultJ_ne (k k2 : String) (v : Json) (l : Frag) (h : k2 ≠ k) :
    lookupJ k (setdefaultJ k2 v l) = lookupJ k l := by
  unfold setdefaultJ
  cases hl : lookupJ k2 l with
  | some w => simp [hl]
  | none =>
    simp only [hl, Option.isSome_none, Bool.false_eq_true, if_false]
    rw [lookupJ_append]
    cases hk : lookupJ k l <;> simp [lookupJ, h]

theorem lookupJ_setdefaultJ_preserve (k k2 : String) (v w : Json) (l : Frag)
    (h : lookupJ k l = some v) : lookupJ k (setdefaultJ k2 w l) = some v := by
  unfold setdefaultJ
  cases hl : lookupJ k2 l with
  | some u => simp [hl, h]
  | none =>
    simp only [hl, Option.isSome_none, Bool.false_eq_true, if_false]
    rw [lookupJ_append, h]
    rfl

theorem lookupJ_popJ_self (k : String) (l : Frag) :
    lookupJ k (popJ k l) = none := by
  induction l with
  | nil => rfl
  | cons p rest ih =>
    obtain ⟨k2, w⟩ := p
    simp only [popJ]
    by_cases h : k2 = k
    · rw [if_pos h]; exact ih
    · rw [if_neg h]
      simp only [lookupJ]
      rw [if_neg h]
      exact ih

theorem lookupJ_popJ_ne (k k2 : String) (l : Frag) (h : k2 ≠ k) :
    lookupJ k (popJ k2 l) = lookupJ k l := by
  induction l with
  | nil => rfl
  | cons p rest ih =>
    obtain ⟨k3, w⟩ := p
    simp only [popJ]
    by_cases h2 : k3 = k2
    · rw [if_pos h2]
      have h3 : k3 ≠ k := by rw [h2]; exact h
      simp only [lookupJ]
      rw [if_neg h3]
      exact ih
    · rw [if_neg h2]
      simp only [lookupJ]
      by_cases h3 : k3 = k
      · rw [if_pos h3, if_pos h3]
      · rw [if_neg h3, if_neg h3]
        exact ih

theorem items_ne_type : ("items" : String) ≠ "type" := by decide

theorem uniqueItems_ne_type : ("uniqueItems" : String) ≠ "type" := by decide

theorem isAllowedType_of_array (t : Option Json) (h : isArrayTypeVal t = true) :
    isAllowedType t = true := by
  match t with
  | none => simp [isArrayTypeVal] at h
  | some Json.null => simp [isArrayTypeVal] at h
  | some (Json.bool b) => simp [isArrayTypeVal] at h
  | some (Json.num n) => simp [isArrayTypeVal] at h
  | some (Json.arr xs) => simp [isArrayTypeVal] at h
  | some (Json.obj kvs) => simp [isArrayTypeVal] at h
  | some (Json.str s) =>
    simp [isArrayTypeVal] at h
    subst h
    decide

theorem lookupJ_type_sanitizeItems (s : Frag) :
    lookupJ "type" (sanitizeItems s) = lookupJ "type" s := by
  unfold sanitizeItems
  exact lookupJ_insertJ_ne _ _ _ _ items_ne_type

theorem itemsFixed_ok (its : Frag) :
    isAllowedItemType (lookupJ "type" (itemsFixed its)) = true := by
  unfold itemsFixed
  cases hI : isAllowedItemType (lookupJ "type" its) with
  | true => simpa using hI
  | false =>
    rw [if_neg (by simp), lookupJ_insertJ_self]
    decide

theorem sanitizeItems_items_ok (s : Frag) :
    ∃ its2, lookupJ "items" (sanitizeItems s) = some (Json.obj its2) ∧
      isAllowedItemType (lookupJ "type" its2) = true := by
  unfold sanitizeItems
  exact ⟨_, lookupJ_insertJ_self _ _ _, itemsFixed_ok _⟩

/-- When the spec's `items` is already a well-shaped dict with an allowed
item type, `sanitizeItems` leaves the spec unchanged. -/
theorem sanitizeItems_fixed (s : Frag) (its : Frag)
    (hits : lookupJ "items" s = some (Json.obj its))
    (hok : isAllowedItemType (lookupJ "type" its) = true) :
    sanitizeItems s = s := by
  unfold sanitizeItems
  rw [hits]
  show insertJ "items" (Json.obj (itemsFixed (objEntries (Json.obj its)))) s = s
  have : itemsFixed (objEntries (Json.obj its)) = its := by
    unfold itemsFixed objEntries
    rw [if_pos hok]
  rw [this]
  exact insertJ_lookupJ_self _ _ _ hits

/-- Branch equation: allowed array type. -/
theorem sanitizeSpec_eq_arr (s : Frag)
    (hA : isAllowedType (lookupJ "type" s) = true)
    (hR : isArrayTypeVal (lookupJ "type" s) = true) :
    sanitizeSpec s = sanitizeItems s := by
  have h1 : typeFixed s = s := by unfold typeFixed; rw [if_pos hA]
  have h2 : arrayFixed s = sanitizeItems s := by unfold arrayFixed; rw [if_pos hR, h1]
  unfold sanitizeSpec uniqFixed
  rw [h2, lookupJ_type_sanitizeItems, hR]
  simp

/-- Branch equation: allowed non-array type with a `uniqueItems` key. -/
theorem sanitizeSpec_eq_nonarr_pop (s : Frag)
    (hA : isAllowedType (lookupJ "type" s) = true)
    (hR : isArrayTypeVal (lookupJ "type" s) = false)
    (hU : (lookupJ "uniqueItems" s).isSome = true) :
    sanitizeSpec s = popJ "uniqueItems" s := by
  have h1 : typeFixed s = s := by unfold typeFixed; rw [if_pos hA]
  have h2 : arrayFixed s = s := by unfold arrayFixed; rw [if_neg (by simp [hR]), h1]
  unfold sanitizeSpec uniqFixed
  rw [h2, hR, hU]
  simp

/-- Branch equation: allowed non-array type, no `uniqueItems` key. -/
theorem sanitizeSpec_eq_nonarr_nopop (s : Frag)
    (hA : isAllowedType (lookupJ "type" s) = true)
    (hR : isArrayTypeVal (lookupJ "type" s) = false)
    (hU : (lookupJ "uniqueItems" s).isSome = false) :
    sanitizeSpec s = s := by
  have h1 : typeFixed s = s := by unfold typeFixed; rw [if_pos hA]
  have h2 : arrayFixed s = s := by unfold arrayFixed; rw [if_neg (by simp [hR]), h1]
  unfold sanitizeSpec uniqFixed
  rw [h2, hR, hU]
  simp

/-- Branch equation: disallowed type, with a `uniqueItems` key. -/
theorem sanitizeSpec_eq_bad_pop (s : Frag)
    (hA : isAllowedType (lookupJ "type" s) = false)
    (hU : (lookupJ "uniqueItems" (insertJ "type" (Json.str "string") s)).isSome = true) :
    sanitizeSpec s = popJ "uniqueItems" (insertJ "type" (Json.str "string") s) := by
  have hR : isArrayTypeVal (lookupJ "type" s) = false := by
    cases hr : isArrayTypeVal (lookupJ "type" s) with
    | true => exact absurd (isAllowedType_of_array _ hr) (by simp [hA])
    | false => rfl
  have h1 : typeFixed s = insertJ "type" (Json.str "string") s := by
    unfold typeFixed; rw [if_neg (by simp [hA])]
  have h2 : arrayFixed s = insertJ "type" (Json.str "string") s := by
    unfold arrayFixed; rw [if_neg (by simp [hR]), h1]
  unfold sanitizeSpec uniqFixed
  rw [h2, lookupJ_insertJ_self, hU]
  have hns : isArrayTypeVal (some (Json.str "string")) = false := by decide
  rw [hns]
  simp

/-- Branch equation: disallowed type, no `uniqueItems` key. -/
theorem sanitizeSpec_eq_bad_nopop (s : Frag)
    (hA : isAllowedType (lookupJ "type" s) = false)
    (hU : (lookupJ "uniqueItems" (insertJ "type" (Json.str "string") s)).isSome = false) :
    sanitizeSpec s = insertJ "type" (Json.str "string") s := by
  have hR : isArrayTypeVal (lookupJ "type" s) = false := by
    cases hr : isArrayTypeVal (lookupJ "type" s) with
    | true => exact absurd (isAllowedType_of_array _ hr) (by simp [hA])
    | false => rfl
  have h1 : typeFixed s = insertJ "type" (Json.str "string") s := by
    unfold typeFixed; rw [if_neg (by simp [hA])]
  have h2 : arrayFixed s = insertJ "type" (Json.str "string") s := by
    unfold arrayFixed; rw [if_neg (by simp [hR]), h1]
  unfold sanitizeSpec uniqFixed
  rw [h2, lookupJ_insertJ_self, hU]
  simp

theorem sanitizeSpec_fixed (s : Frag) (h : specSane s) : sanitizeSpec s = s := by
  obtain ⟨h1, h2, h3⟩ := h
  cases hR : isArrayTypeVal (lookupJ "type" s) with
  | true =>
    obtain ⟨its, hits, hita⟩ := h2 hR
    rw [sanitizeSpec_eq_arr s h1 hR]
    exact sanitizeItems_fixed s its hits hita
  | false =>
    cases hU : (lookupJ "uniqueItems" s).isSome with
    | true => exact absurd (h3 hU) (by simp [hR])
    | false => exact sanitizeSpec_eq_nonarr_nopop s h1 hR hU

theorem sanitizeSpec_invariants (s : Frag) : specSane (sanitizeSpec s) := by
  cases hA : isAllowedType (lookupJ "type" s) with
  | true =>
    cases hR : isArrayTypeVal (lookupJ "type" s) with
    | true =>
      rw [sanitizeSpec_eq_arr s hA hR]
      have htypes : lookupJ "type" (sanitizeItems s) = lookupJ "type" s :=
        lookupJ_type_sanitizeItems s
      refine ⟨by rw [htypes]; exact hA, ?_, ?_⟩
      · intro _
        exact sanitizeItems_items_ok s
      · intro _
        rw [htypes]
        exact hR
    | false =>
      cases hU : (lookupJ "uniqueItems" s).isSome with
      | true =>
        rw [sanitizeSpec_eq_nonarr_pop s hA hR hU]
        have htp : lookupJ "type" (popJ "uniqueItems" s) = lookupJ "type" s :=
          lookupJ_popJ_ne _ _ _ uniqueItems_ne_type
        refine ⟨by rw [htp]; exact hA, ?_, ?_⟩
        · intro hr
          rw [htp, hR] at hr
          exact absurd hr (by simp)
        · intro hu
          rw [lookupJ_popJ_self] at hu
          exact absurd hu (by simp)
      | false =>
        rw [sanitizeSpec_eq_nonarr_nopop s hA hR hU]
        refine ⟨hA, ?_, ?_⟩
        · intro hr
          rw [hR] at hr
          exact absurd hr (by simp)
        · intro hu
          rw [hU] at hu
          exact absurd hu (by simp)
  | false =>
    have htp : lookupJ "type" (insertJ "type" (Json.str "string") s) =
        some (Json.str "string") := lookupJ_insertJ_self _ _ _
    cases hU : (lookupJ "uniqueItems" (insertJ "type" (Json.str "string") s)).isSome with
    | true =>
      rw [sanitizeSpec_eq_bad_pop s hA hU]
      have htp2 : lookupJ "type" (popJ "uniqueItems" (insertJ "type" (Json.str "string") s)) =
          some (Json.str "string") := by
        rw [lookupJ_popJ_ne _ _ _ uniqueItems_ne_type, htp]
      refine ⟨by rw [htp2]; decide, ?_, ?_⟩
      · intro hr
        rw [htp2] at hr
        exact absurd hr (by decide)
      · intro hu
        rw [lookupJ_popJ_self] at hu
        exact absurd hu (by simp)
    | false =>
      rw [sanitizeSpec_eq_bad_nopop s hA hU]
      refine ⟨by rw [htp]; decide, ?_, ?_⟩
      · intro hr
        rw [htp] at hr
        exact absurd hr (by decide)
      · intro hu
        rw [hU] at hu
        exact absurd hu (by simp)

theorem sanitizeSpec_idem (s : Frag) : sanitizeSpec (sanitizeSpec s) = sanitizeSpec s :=
  sanitizeSpec_fixed _ (sanitizeSpec_invariants s)

theorem sanitizeEntry_idem (kv : String × Json) :
    sanitizeEntry (sanitizeEntry kv) = sanitizeEntry kv := by
  obtain ⟨k, v⟩ := kv
  cases v with
  | obj spec => simp [sanitizeEntry, sanitizeSpec_idem]
  | null => rfl
  | bool b => rfl
  | num n => rfl
  | str s => rfl
  | arr xs => rfl

theorem withDefaults_type_isSome (f : Frag) :
    (lookupJ "type" (withDefaults f)).isSome = true := by
  unfold withDefaults
  rw [lookupJ_setdefaultJ_ne _ _ _ _ (by decide), lookupJ_setdefaultJ_ne _ _ _ _ (by decide),
    lookupJ_setdefaultJ_ne _ _ _ _ (by decide), lookupJ_setdefaultJ_ne _ _ _ _ (by decide)]
  exact lookupJ_setdefaultJ_isSome _ _ _

theorem withDefaults_properties_isSome (f : Frag) :
    (lookupJ "properties" (withDefaults f)).isSome = true := by
  unfold withDefaults
  rw [lookupJ_setdefaultJ_ne _ _ _ _ (by decide), lookupJ_setdefaultJ_ne _ _ _ _ (by decide),
    lookupJ_setdefaultJ_ne _ _ _ _ (by decide)]
  exact lookupJ_setdefaultJ_isSome _ _ _

theorem withDefaults_required_isSome (f : Frag) :
    (lookupJ "required" (withDefaults f)).isSome = true := by
  unfold withDefaults
  rw [lookupJ_setdefaultJ_ne _ _ _ _ (by decide), lookupJ_setdefaultJ_ne _ _ _ _ (by decide)]
  exact lookupJ_setdefaultJ_isSome _ _ _

theorem withDefaults_primaryKey_isSome (f : Frag) :
    (lookupJ "primaryKey" (withDefaults f)).isSome = true := by
  unfold withDefaults
  rw [lookupJ_setdefaultJ_ne _ _ _ _ (by decide)]
  exact lookupJ_setdefaultJ_isSome _ _ _

theorem withDefaults_additionalProperties_isSome (f : Frag) :
    (lookupJ "additionalProperties" (withDefaults f)).isSome = true :=
  lookupJ_setdefaultJ_isSome _ _ _

/-- A fragment in which all five structural keys are present is left
unchanged by the defaulting phase. -/
theorem withDefaults_fixed (d : Frag)
    (h1 : (lookupJ "type" d).isSome = true)
    (h2 : (lookupJ "properties" d).isSome = true)
    (h3 : (lookupJ "required" d).isSome = true)
    (h4 : (lookupJ "primaryKey" d).isSome = true)
    (h5 : (lookupJ "additionalProperties" d).isSome = true) :
    withDefaults d = d := by
  unfold withDefaults
  rw [setdefaultJ_of_present _ _ _ h1, setdefaultJ_of_present _ _ _ h2,
    setdefaultJ_of_present _ _ _ h3, setdefaultJ_of_present _ _ _ h4,
    setdefaultJ_of_present _ _ _ h5]

theorem coerce_eq_ok (f : Frag) (props : Frag)
    (h : lookupJ "properties" (withDefaults f) = some (Json.obj props)) :
    coerce_draft07 f =
      .ok (insertJ "properties" (Json.obj (props.map sanitizeEntry)) (withDefaults f)) := by
  unfold coerce_draft07
  rw [h]

theorem coerce_ok_inv (f d : Frag) (h : coerce_draft07 f = .ok d) :
    ∃ props, lookupJ "properties" (withDefaults f) = some (Json.obj props) ∧
      d = insertJ "properties" (Json.obj (props.map sanitizeEntry)) (withDefaults f) := by
  unfold coerce_draft07 at h
  cases hp : lookupJ "properties" (withDefaults f) with
  | none => rw [hp] at h; exact absurd h (by simp)
  | some v =>
    cases v with
    | obj props =>
      rw [hp] at h
      exact ⟨props, rfl, (Except.ok.injEq _ _ ▸ h).symm⟩
    | null => rw [hp] at h; exact absurd h (by simp)
    | bool b => rw [hp] at h; exact absurd h (by simp)
    | num n => rw [hp] at h; exact absurd h (by simp)
    | str s => rw [hp] at h; exact absurd h (by simp)
    | arr xs => rw [hp] at h; exact absurd h (by simp)

theorem map_sanitizeEntry_idem (l : Frag) :
    (l.map sanitizeEntry).map sanitizeEntry = l.map sanitizeEntry := by
  induction l with
  | nil => rfl
  | cons kv rest ih => simp [sanitizeEntry_idem, ih]

/-- The output of `_coerce_draft07` is a fixed point of `_coerce_draft07`. -/
theorem coerce_fixed (f d : Frag) (h : coerce_draft07 f = .ok d) :
    coerce_draft07 d = .ok d := by
  obtain ⟨props, hp, hd⟩ := coerce_ok_inv f d h
  have hPd : lookupJ "properties" d = some (Json.obj (props.map sanitizeEntry)) := by
    rw [hd]; exact lookupJ_insertJ_self _ _ _
  have hT : (lookupJ "type" d).isSome = true := by
    rw [hd, lookupJ_insertJ_ne _ _ _ _ (by decide)]
    exact withDefaults_type_isSome f
  have hR : (lookupJ "required" d).isSome = true := by
    rw [hd, lookupJ_insertJ_ne _ _ _ _ (by decide)]
    exact withDefaults_required_isSome f
  have hK : (lookupJ "primaryKey" d).isSome = true := by
    rw [hd, lookupJ_insertJ_ne _ _ _ _ (by decide)]
    exact withDefaults_primaryKey_isSome f
  have hA : (lookupJ "additionalProperties" d).isSome = true := by
    rw [hd, lookupJ_insertJ_ne _ _ _ _ (by decide)]
    exact withDefaults_additionalProperties_isSome f
  have hwd : withDefaults d = d :=
    withDefaults_fixed d hT (by rw [hPd]; rfl) hR hK hA
  unfold coerce_draft07
  rw [hwd, hPd]
  show Except.ok
      (insertJ "properties" (Json.obj ((props.map sanitizeEntry).map sanitizeEntry)) d) =
    Except.ok d
  rw [map_sanitizeEntry_idem, insertJ_lookupJ_self _ _ _ hPd]

theorem unionKey_eq (key : String) (out sg : Frag) (la lb u : List Json)
    (ho : lookupJ key out = some (Json.arr la))
    (hs : lookupJ key sg = some (Json.arr lb))
    (hu : uniq (la ++ lb) = .ok u) :
    unionKey key out sg = .ok (insertJ key (Json.arr u) out) := by
  unfold unionKey
  rw [ho, hs]
  simp only [Option.getD_some, pyIter]
  rw [hu]

/-- Success characterization of `_merge_extend` for well-shaped inputs. -/
theorem merge_extend_eq (ex sg : Frag) (p q : Frag) (ra rb ka kb req pk : List Json)
    (hp : lookupJ "properties" ex = some (Json.obj p))
    (hq : lookupJ "properties" sg = some (Json.obj q))
    (hra : lookupJ "required" ex = some (Json.arr ra))
    (hrb : lookupJ "required" sg = some (Json.arr rb))
    (hka : lookupJ "primaryKey" ex = some (Json.arr ka))
    (hkb : lookupJ "primaryKey" sg = some (Json.arr kb))
    (hreq : uniq (ra ++ rb) = .ok req)
    (hpk : uniq (ka ++ kb) = .ok pk) :
    merge_extend ex sg =
      .ok (titleStep sg (addPropsStep sg
            (insertJ "primaryKey" (Json.arr pk)
              (insertJ "required" (Json.arr req)
                (insertJ "properties" (Json.obj (updateJ p q)) ex)))),
        insertJ "properties" (Json.obj (updateJ p q)) ex) := by
  have h0 : setdefaultJ "properties" (Json.obj []) ex = ex :=
    setdefaultJ_of_present _ _ _ (by rw [hp]; rfl)
  have hsp : suggPropsOf sg = .ok q := by unfold suggPropsOf; rw [hq]
  have hr1 : lookupJ "required" (insertJ "properties" (Json.obj (updateJ p q)) ex) =
      some (Json.arr ra) := by
    rw [lookupJ_insertJ_ne _ _ _ _ (by decide), hra]
  have hu1 : unionKey "required" (insertJ "properties" (Json.obj (updateJ p q)) ex) sg =
      .ok (insertJ "required" (Json.arr req)
        (insertJ "properties" (Json.obj (updateJ p q)) ex)) :=
    unionKey_eq _ _ _ _ _ _ hr1 hrb hreq
  have hk1 : lookupJ "primaryKey" (insertJ "required" (Json.arr req)
      (insertJ "properties" (Json.obj (updateJ p q)) ex)) = some (Json.arr ka) := by
    rw [lookupJ_insertJ_ne _ _ _ _ (by decide), lookupJ_insertJ_ne _ _ _ _ (by decide), hka]
  have hu2 : unionKey "primaryKey" (insertJ "required" (Json.arr req)
        (insertJ "properties" (Json.obj (updateJ p q)) ex)) sg =
      .ok (insertJ "primaryKey" (Json.arr pk)
        (insertJ "required" (Json.arr req)
          (insertJ "properties" (Json.obj (updateJ p q)) ex))) :=
    unionKey_eq _ _ _ _ _ _ hk1 hkb hpk
  have hea : existingAfterOf ex (updateJ p q) =
      insertJ "properties" (Json.obj (updateJ p q)) ex := by
    unfold existingAfterOf
    rw [hp]
  unfold merge_extend
  rw [h0]
  simp only [hp, hsp, hu1, hu2, hea]

/-! ## Supporting lemmas -/

theorem lookupJ_setdefaultJ_self_eq (k : String) (v : Json) (l : Frag) :
    lookupJ k (setdefaultJ k v l) = some ((lookupJ k l).getD v) := by
  unfold setdefaultJ
  cases hl : lookupJ k l with
  | some w => simp [hl]
  | none => simp [hl, lookupJ_append, lookupJ]

theorem withDefaults_properties_eq (F : Frag) :
    lookupJ "properties" (withDefaults F) =
      some ((lookupJ "properties" F).getD (Json.obj [])) := by
  unfold withDefaults
  rw [lookupJ_setdefaultJ_ne _ _ _ _ (by decide), lookupJ_setdefaultJ_ne _ _ _ _ (by decide),
    lookupJ_setdefaultJ_ne _ _ _ _ (by decide), lookupJ_setdefaultJ_self_eq,
    lookupJ_setdefaultJ_ne _ _ _ _ (by decide)]

theorem lookupJ_insertJ_preserve (k f : String) (v w : Json) (l : Frag)
    (hf : lookupJ f l = none) (h : lookupJ k l = some v) :
    lookupJ k (insertJ f w l) = some v := by
  have hne : f ≠ k := by
    intro hc
    rw [hc, h] at hf
    exact Option.noConfusion hf
  rw [lookupJ_insertJ_ne _ _ _ _ hne]
  exact h

theorem foldl_preserve {α : Type} (step : Frag → α → Frag)
    (hstep : ∀ acc x k v, lookupJ k acc = some v → lookupJ k (step acc x) = some v)
    (ms : List α) (acc : Frag) (k : String) (v : Json)
    (h : lookupJ k acc = some v) : lookupJ k (ms.foldl step acc) = some v := by
  induction ms generalizing acc with
  | nil => exact h
  | cons m rest ih => exact ih _ (hstep _ _ _ _ h)

theorem arrStep_preserve (acc : Frag) (m : MatchData) (k : String) (v : Json)
    (h : lookupJ k acc = some v) : lookupJ k (arrStep acc m) = some v := by
  unfold arrStep
  by_cases h1 : containsL (pyLower (capOf m 2)).toList "enum".toList = true
  · rw [if_pos h1]; exact h
  · rw [if_neg h1]
    by_cases h2 : (decide (2 ≤ (splitStripNonempty (capOf m 2)).length) &&
        (lookupJ (capOf m 1) acc).isNone) = true
    · rw [if_pos h2]
      have h3 := h2
      simp only [Bool.and_eq_true] at h3
      have hn : lookupJ (capOf m 1) acc = none :=
        Option.isNone_iff_eq_none.mp h3.2
      exact lookupJ_insertJ_preserve _ _ _ _ _ hn h
    · rw [if_neg h2]; exact h

theorem setdefaultJ_preserve_any (f : String) (w : Json) (l : Frag) (k : String) (v : Json)
    (h : lookupJ k l = some v) : lookupJ k (setdefaultJ f w l) = some v :=
  lookupJ_setdefaultJ_preserve _ _ _ _ _ h

theorem passArrays_preserve (t : String) (p : Frag) (k : String) (v : Json)
    (h : lookupJ k p = some v) : lookupJ k (passArrays t p) = some v :=
  foldl_preserve arrStep arrStep_preserve _ p k v h

theorem passHints_preserve (t : String) (p : Frag) (k : String) (v : Json)
    (h : lookupJ k p = some v) : lookupJ k (passHints t p) = some v := by
  unfold passHints
  apply foldl_preserve hintStep
  · intro acc x k2 v2 h2
    exact setdefaultJ_preserve_any _ _ _ _ _ h2
  · by_cases he : reSearchB reEmailW t = true
    · rw [if_pos he]
      exact setdefaultJ_preserve_any _ _ _ _ _ h
    · rw [if_neg he]
      exact h

theorem passTyped_preserve (t : String) (p : Frag) (k : String) (v : Json)
    (h : lookupJ k p = some v) : lookupJ k (passTyped t p) = some v := by
  apply foldl_preserve typedStep
  · intro acc x k2 v2 h2
    exact setdefaultJ_preserve_any _ _ _ _ _ h2
  · exact h

theorem lookupJ_eq_none_of_not_mem (k : String) (l : Frag)
    (h : k ∉ l.map Prod.fst) : lookupJ k l = none := by
  induction l with
  | nil => rfl
  | cons kv rest ih =>
    obtain ⟨k2, v⟩ := kv
    simp only [List.map_cons, List.mem_cons] at h
    push_neg at h
    simp only [lookupJ]
    rw [if_neg (fun hc : k2 = k => h.1 (hc ▸ rfl)), ih h.2]

theorem lookupJ_updateJ (p q : Frag) (k : String)
    (hnd : (q.map Prod.fst).Nodup) :
    lookupJ k (updateJ p q) = ((lookupJ k q).elim (lookupJ k p) some) := by
  induction q generalizing p with
  | nil => simp [updateJ, lookupJ]
  | cons kv rest ih =>
    obtain ⟨k2, v⟩ := kv
    simp only [List.map_cons, List.nodup_cons] at hnd
    have hstep : updateJ p ((k2, v) :: rest) = updateJ (insertJ k2 v p) rest := rfl
    rw [hstep, ih _ hnd.2]
    by_cases h : k2 = k
    · subst h
      have hrest : lookupJ k2 rest = none := lookupJ_eq_none_of_not_mem _ _ hnd.1
      have hl : lookupJ k2 ((k2, v) :: rest) = some v := by simp [lookupJ]
      rw [hrest, hl, lookupJ_insertJ_self]
      rfl
    · have hl : lookupJ k ((k2, v) :: rest) = lookupJ k rest := by simp [lookupJ, h]
      rw [hl]
      cases hr : lookupJ k rest with
      | some w => rfl
      | none =>
        show lookupJ k (insertJ k2 v p) = lookupJ k p
        exact lookupJ_insertJ_ne _ _ _ _ h

theorem mem_insertJ (k : String) (v : Json) (l : Frag) (kv : String × Json)
    (h : kv ∈ insertJ k v l) : kv = (k, v) ∨ kv ∈ l := by
  induction l with
  | nil =>
    simp only [insertJ, List.mem_singleton] at h
    exact Or.inl h
  | cons p rest ih =>
    obtain ⟨k2, w⟩ := p
    simp only [insertJ] at h
    by_cases h2 : k2 = k
    · rw [if_pos h2] at h
      rcases List.mem_cons.mp h with h3 | h3
      · exact Or.inl h3
      · exact Or.inr (List.mem_cons_of_mem _ h3)
    · rw [if_neg h2] at h
      rcases List.mem_cons.mp h with h3 | h3
      · exact Or.inr (h3 ▸ List.mem_cons_self _ _)
      · rcases ih h3 with h4 | h4
        · exact Or.inl h4
        · exact Or.inr (List.mem_cons_of_mem _ h4)

theorem mem_updateJ (p q : Frag) (kv : String × Json)
    (h : kv ∈ updateJ p q) : kv ∈ p ∨ kv ∈ q := by
  induction q generalizing p with
  | nil => exact Or.inl h
  | cons x rest ih =>
    obtain ⟨k2, v⟩ := x
    have hstep : updateJ p ((k2, v) :: rest) = updateJ (insertJ k2 v p) rest := rfl
    rw [hstep] at h
    rcases ih _ h with h2 | h2
    · rcases mem_insertJ _ _ _ _ h2 with h3 | h3
      · exact Or.inr (h3 ▸ List.mem_cons_self _ _)
      · exact Or.inl h3
    · exact Or.inr (List.mem_cons_of_mem _ h2)

theorem map_fixed_of_entries (l : Frag)
    (h : ∀ kv ∈ l, sanitizeEntry kv = kv) : l.map sanitizeEntry = l := by
  induction l with
  | nil => rfl
  | cons kv rest ih =>
    simp only [List.map_cons]
    rw [h kv (List.mem_cons_self _ _), ih (fun x hx => h x (List.mem_cons_of_mem _ hx))]

theorem entries_of_map_sanitizeEntry_fixed (l : Frag) (kv : String × Json)
    (h : kv ∈ l.map sanitizeEntry) : sanitizeEntry kv = kv := by
  rcases List.mem_map.mp h with ⟨kv0, _, hkv⟩
  rw [← hkv]
  exact sanitizeEntry_idem kv0

theorem sanitizeEntry_eq (kv : String × Json) :
    sanitizeEntry kv = (kv.1, sanitizeVal kv.2) := by
  obtain ⟨k, v⟩ := kv
  cases v <;> rfl

theorem lookupJ_map_sanitizeEntry (props : Frag) (k : String) :
    lookupJ k (props.map sanitizeEntry) = (lookupJ k props).map sanitizeVal := by
  induction props with
  | nil => rfl
  | cons kv rest ih =>
    obtain ⟨k2, v⟩ := kv
    rw [List.map_cons, sanitizeEntry_eq]
    simp only [lookupJ]
    by_cases h : k2 = k
    · rw [if_pos h, if_pos h]
      rfl
    · rw [if_neg h, if_neg h]
      exact ih

theorem sanitizeSpec_type_of_bad (spec : Frag)
    (hA : isAllowedType (lookupJ "type" spec) = false) :
    lookupJ "type" (sanitizeSpec spec) = some (Json.str "string") := by
  cases hU : (lookupJ "uniqueItems" (insertJ "type" (Json.str "string") spec)).isSome with
  | true =>
    rw [sanitizeSpec_eq_bad_pop spec hA hU, lookupJ_popJ_ne _ _ _ uniqueItems_ne_type,
      lookupJ_insertJ_self]
  | false =>
    rw [sanitizeSpec_eq_bad_nopop spec hA hU, lookupJ_insertJ_self]

/-- Structural shape of any successful `_coerce_draft07` output. -/
theorem coerce_ok_shape (f d : Frag) (h : coerce_draft07 f = .ok d) :
    (∃ pr : Frag, lookupJ "properties" d = some (Json.obj (pr.map sanitizeEntry))) ∧
    (lookupJ "type" d).isSome = true ∧
    (lookupJ "required" d).isSome = true ∧
    (lookupJ "primaryKey" d).isSome = true ∧
    (lookupJ "additionalProperties" d).isSome = true := by
  obtain ⟨props, hp, hd⟩ := coerce_ok_inv f d h
  refine ⟨⟨props, ?_⟩, ?_, ?_, ?_, ?_⟩
  · rw [hd]; exact lookupJ_insertJ_self _ _ _
  · rw [hd, lookupJ_insertJ_ne _ _ _ _ (by decide)]
    exact withDefaults_type_isSome f
  · rw [hd, lookupJ_insertJ_ne _ _ _ _ (by decide)]
    exact withDefaults_required_isSome f
  · rw [hd, lookupJ_insertJ_ne _ _ _ _ (by decide)]
    exact withDefaults_primaryKey_isSome f
  · rw [hd, lookupJ_insertJ_ne _ _ _ _ (by decide)]
    exact withDefaults_additionalProperties_isSome f

theorem lookupJ_titleStep_ne (sg out : Frag) (k : String) (h : ("title" : String) ≠ k) :
    lookupJ k (titleStep sg out) = lookupJ k out := by
  unfold titleStep
  by_cases hc : (!(((lookupJ "title" out).getD Json.null).toBool) &&
      ((lookupJ "title" sg).getD Json.null).toBool) = true
  · rw [if_pos hc]
    cases hv : lookupJ "title" sg with
    | some v => exact lookupJ_insertJ_ne _ _ _ _ h
    | none => rfl
  · rw [if_neg hc]

theorem lookupJ_addPropsStep_ne (sg out : Frag) (k : String)
    (h : ("additionalProperties" : String) ≠ k) :
    lookupJ k (addPropsStep sg out) = lookupJ k out := by
  unfold addPropsStep
  cases hv : lookupJ "additionalProperties" sg with
  | some v => exact lookupJ_insertJ_ne _ _ _ _ h
  | none => rfl

theorem lookupJ_addPropsStep_eq (sg out : Frag) :
    lookupJ "additionalProperties" (addPropsStep sg out) =
      ((lookupJ "additionalProperties" sg).elim
        (lookupJ "additionalProperties" out) some) := by
  unfold addPropsStep
  cases hv : lookupJ "additionalProperties" sg with
  | some v => rw [lookupJ_insertJ_self]; rfl
  | none => rfl

theorem unionKey_ok_inv (key : String) (out sg o : Frag)
    (h : unionKey key out sg = .ok o) :
    ∃ u, o = insertJ key (Json.arr u) out := by
  unfold unionKey at h
  cases h1 : pyIter ((lookupJ key out).getD (Json.arr [])) with
  | error e =>
    simp only [h1] at h
    exact Except.noConfusion h
  | ok exL =>
    simp only [h1] at h
    cases h2 : pyIter ((lookupJ key sg).getD (Json.arr [])) with
    | error e =>
      simp only [h2] at h
      exact Except.noConfusion h
    | ok sgL =>
      simp only [h2] at h
      cases h3 : uniq (exL ++ sgL) with
      | error e =>
        simp only [h3] at h
        exact Except.noConfusion h
      | ok u =>
        simp only [h3] at h
        exact ⟨u, (Except.ok.inj h).symm⟩

/-- Inversion: the shape of any successful `_merge_extend` result. -/
theorem merge_extend_ok_inv (ex sg m ea : Frag)
    (h : merge_extend ex sg = .ok (m, ea)) :
    ∃ (outProps suggProps : Frag) (req pk : List Json),
      lookupJ "properties" (setdefaultJ "properties" (Json.obj []) ex) =
        some (Json.obj outProps) ∧
      suggPropsOf sg = .ok suggProps ∧
      m = titleStep sg (addPropsStep sg
        (insertJ "primaryKey" (Json.arr pk)
          (insertJ "required" (Json.arr req)
            (insertJ "properties" (Json.obj (updateJ outProps suggProps))
              (setdefaultJ "properties" (Json.obj []) ex))))) := by
  unfold merge_extend at h
  cases h0 : lookupJ "properties" (setdefaultJ "properties" (Json.obj []) ex) with
  | none =>
    simp only [h0] at h
    exact Except.noConfusion h
  | some v =>
    cases v with
    | obj outProps =>
      simp only [h0] at h
      cases h1 : suggPropsOf sg with
      | error e =>
        simp only [h1] at h
        exact Except.noConfusion h
      | ok suggProps =>
        simp only [h1] at h
        cases h2 : unionKey "required"
            (insertJ "properties" (Json.obj (updateJ outProps suggProps))
              (setdefaultJ "properties" (Json.obj []) ex)) sg with
        | error e =>
          simp only [h2] at h
          exact Except.noConfusion h
        | ok out2 =>
          simp only [h2] at h
          cases h3 : unionKey "primaryKey" out2 sg with
          | error e =>
            simp only [h3] at h
            exact Except.noConfusion h
          | ok out3 =>
            simp only [h3] at h
            obtain ⟨req, hreq⟩ := unionKey_ok_inv _ _ _ _ h2
            obtain ⟨pk, hpk⟩ := unionKey_ok_inv _ _ _ _ h3
            have hm : m = titleStep sg (addPropsStep sg out3) :=
              ((Prod.mk.injEq _ _ _ _).mp (Except.ok.inj h)).1.symm
            exact ⟨outProps, suggProps, req, pk, rfl, rfl, by rw [hm, hpk, hreq]⟩
    | null => simp only [h0] at h; exact Except.noConfusion h
    | bool b => simp only [h0] at h; exact Except.noConfusion h
    | num n => simp only [h0] at h; exact Except.noConfusion h
    | str s => simp only [h0] at h; exact Except.noConfusion h
    | arr xs => simp only [h0] at h; exact Except.noConfusion h

/-! ## Claim theorems -/

/-- C1 (code bug): the spec states the core never mutates the
SchemaContext, but `_merge_extend`'s `out = dict(existing)` copies only
the top level and `out["properties"].update(...)` then mutates the
target entity's properties dict shared with `schema_ctx`.  At the
failing input (EXTEND_ENTITY of `users` with instruction
"tier enum: free, pro" against a context in which `users.properties`
maps only `name`), the context after `suggest_definition` carries a
`tier` property that was absent before the call. -/
theorem c1_mutation_at_failing_input :
    ∃ (r : SuggResult) (ctxA : Frag),
      suggest_definition_pair "tier enum: free, pro" "extend_entity"
        [("definitions", Json.obj [("users",
          Json.obj [("properties",
            Json.obj [("name", Json.obj [("type", Json.str "string")])])])])]
        (some "users") = .ok (r, ctxA) ∧
      (∃ defs u props2,
        lookupJ "definitions" ctxA = some (Json.obj defs) ∧
        lookupJ "users" defs = some (Json.obj u) ∧
        lookupJ "properties" u = some (Json.obj props2) ∧
        (lookupJ "tier" props2).isSome = true) ∧
      lookupJ "tier" [("name", Json.obj [("type", Json.str "string")])] = none :=
  ⟨{ mode := "extend_entity", definition_key := "users", definition :=
      [("properties", Json.obj [
          ("name", Json.obj [("type", Json.str "string")]),
          ("tier", Json.obj [("type", Json.str "string"),
            ("enum", Json.arr [Json.str "free", Json.str "pro"])]),
          ("enum", Json.obj [("type", Json.str "array"),
            ("items", Json.obj [("type", Json.str "string"),
              ("enum", Json.arr [Json.str "free", Json.str "pro"])])])]),
        ("required", Json.arr []), ("primaryKey", Json.arr []),
        ("additionalProperties", Json.bool false), ("title", Json.str "User")] },
    [("definitions", Json.obj [("users", Json.obj [("properties", Json.obj [
        ("name", Json.obj [("type", Json.str "string")]),
        ("tier", Json.obj [("type", Json.str "string"),
          ("enum", Json.arr [Json.str "free", Json.str "pro"])]),
        ("enum", Json.obj [("type", Json.str "array"),
          ("items", Json.obj [("type", Json.str "string"),
            ("enum", Json.arr [Json.str "free", Json.str "pro"])])])])])])],
    rfl,
    ⟨[("users", Json.obj [("properties", Json.obj [
        ("name", Json.obj [("type", Json.str "string")]),
        ("tier", Json.obj [("type", Json.str "string"),
          ("enum", Json.arr [Json.str "free", Json.str "pro"])]),
        ("enum", Json.obj [("type", Json.str "array"),
          ("items", Json.obj [("type", Json.str "string"),
            ("enum", Json.arr [Json.str "free", Json.str "pro"])])])])])],
      [("properties", Json.obj [
        ("name", Json.obj [("type", Json.str "string")]),
        ("tier", Json.obj [("type", Json.str "string"),
          ("enum", Json.arr [Json.str "free", Json.str "pro"])]),
        ("enum", Json.obj [("type", Json.str "array"),
          ("items", Json.obj [("type", Json.str "string"),
            ("enum", Json.arr [Json.str "free", Json.str "pro"])])])])],
      [("name", Json.obj [("type", Json.str "string")]),
        ("tier", Json.obj [("type", Json.str "string"),
          ("enum", Json.arr [Json.str "free", Json.str "pro"])]),
        ("enum", Json.obj [("type", Json.str "array"),
          ("items", Json.obj [("type", Json.str "string"),
            ("enum", Json.arr [Json.str "free", Json.str "pro"])])])],
      rfl, rfl, rfl, rfl⟩,
    rfl⟩

/-- C2 (amended): the delimited-list, format-hint and typed-literal
passes never overwrite an already-populated field (in particular an enum
interpretation beats a typed-literal one for the same field), but the
foreign-key pass assigns unconditionally and can overwrite earlier
passes; so the claim's blanket "never overwritten" fails only through
the FK pass. -/
theorem c2_amended (t : String) (p : Frag) (k : String) (v : Json)
    (h : lookupJ k p = some v) :
    lookupJ k (passArrays t p) = some v ∧
    lookupJ k (passHints t p) = some v ∧
    lookupJ k (passTyped t p) = some v :=
  ⟨passArrays_preserve t p k v h, passHints_preserve t p k v h,
    passTyped_preserve t p k v h⟩

theorem c2_amended_witness :
    lookupJ "status" (passEnum "status enum: a, b\nstatus (string)" []) =
      some (enumSpecOf ["a", "b"]) ∧
    (lookupJ "status" (passArrays "status enum: a, b\nstatus (string)"
        (passEnum "status enum: a, b\nstatus (string)" [])) = some (enumSpecOf ["a", "b"]) ∧
      lookupJ "status" (passHints "status enum: a, b\nstatus (string)"
        (passEnum "status enum: a, b\nstatus (string)" [])) = some (enumSpecOf ["a", "b"]) ∧
      lookupJ "status" (passTyped "status enum: a, b\nstatus (string)"
        (passEnum "status enum: a, b\nstatus (string)" [])) = some (enumSpecOf ["a", "b"])) :=
  ⟨rfl, c2_amended "status enum: a, b\nstatus (string)"
    (passEnum "status enum: a, b\nstatus (string)" []) "status" (enumSpecOf ["a", "b"]) rfl⟩

/-- C2 counterexample: in the text
`"status enum: a, b\nFK: status → users.id"` the enum pass populates
`status`, and the later foreign-key pass overwrites it with the FK spec,
refuting "a field name already populated by an earlier pass is never
overwritten by a later, lower-priority pass". -/
theorem c2_counterexample :
    lookupJ "status" (passEnum "status enum: a, b\nFK: status → users.id" []) =
      some (enumSpecOf ["a", "b"]) ∧
    lookupJ "status" (extractProps "status enum: a, b\nFK: status → users.id" []) =
      some (fkSpecOf "users" "id") ∧
    enumSpecOf ["a", "b"] ≠ fkSpecOf "users" "id" :=
  ⟨rfl, rfl, fun h =>
    Option.noConfusion (congrArg (fun j => lookupJ "enum" (objEntries j)) h)⟩

/-- C3 (amended): in NEW_DEFINITION mode `_rule_based_from_text` performs
no vocabulary scan at all: the resolved key is always `"entity"`
(line 89), for every instruction text and target. -/
theorem c3_amended (text : String) (target : Option String) :
    (rule_based_from_text text "new_definition" target).definition_key = "entity" := rfl

/-- C3 counterexample: for "create widgets" the returned key is
`"entity"`, not the claimed `"widgets"`. -/
theorem c3_counterexample :
    (rule_based_from_text "create widgets" "new_definition" none).definition_key =
      "entity" ∧ ("entity" : String) ≠ "widgets" :=
  ⟨rfl, by decide⟩

/-- C4 (confirmed): normalization is idempotent: composing
`_coerce_draft07` with itself (through `Except.bind`, since the function
can raise) equals a single application, for every fragment. -/
theorem c4_normalize_idempotent (F : Frag) :
    Except.bind (coerce_draft07 F) coerce_draft07 = coerce_draft07 F := by
  cases h : coerce_draft07 F with
  | error e => rfl
  | ok d => exact coerce_fixed F d h

/-- C5 counterexample: a fragment whose `"properties"` key holds a
non-mapping makes `_coerce_draft07` raise `AttributeError` at
`d["properties"].items()` — normalization is not total. -/
theorem c5_counterexample :
    coerce_draft07 [("properties", Json.str "x")] =
      .error "AttributeError: object has no attribute items" := rfl

/-- C5 (amended): normalization succeeds — and returns a fragment with
all five structural keys present — provided the value under
`"properties"`, when present, is a mapping. -/
theorem c5_amended (F : Frag)
    (h : lookupJ "properties" F = none ∨
      ∃ ps : Frag, lookupJ "properties" F = some (Json.obj ps)) :
    ∃ d, coerce_draft07 F = .ok d ∧
      (lookupJ "type" d).isSome = true ∧
      (lookupJ "properties" d).isSome = true ∧
      (lookupJ "required" d).isSome = true ∧
      (lookupJ "primaryKey" d).isSome = true ∧
      (lookupJ "additionalProperties" d).isSome = true := by
  have hwp : ∃ props : Frag,
      lookupJ "properties" (withDefaults F) = some (Json.obj props) := by
    rcases h with h | ⟨ps, h⟩
    · exact ⟨[], by rw [withDefaults_properties_eq, h]; rfl⟩
    · exact ⟨ps, by rw [withDefaults_properties_eq, h]; rfl⟩
  obtain ⟨props, hwp⟩ := hwp
  have hok := coerce_eq_ok F props hwp
  obtain ⟨⟨pr, hpr⟩, h2, h3, h4, h5⟩ := coerce_ok_shape F _ hok
  exact ⟨_, hok, h2, by rw [hpr]; rfl, h3, h4, h5⟩

theorem c5_amended_witness :
    (lookupJ "properties" ([] : Frag) = none ∨
      ∃ ps : Frag, lookupJ "properties" ([] : Frag) = some (Json.obj ps)) ∧
    (∃ d, coerce_draft07 ([] : Frag) = .ok d ∧
      (lookupJ "type" d).isSome = true ∧
      (lookupJ "properties" d).isSome = true ∧
      (lookupJ "required" d).isSome = true ∧
      (lookupJ "primaryKey" d).isSome = true ∧
      (lookupJ "additionalProperties" d).isSome = true) :=
  ⟨Or.inl rfl, c5_amended [] (Or.inl rfl)⟩

/-- C6 (amended): a property whose `type` is PRESENT and not one of the
six allowed primitives is forced to `"string"`; however an ABSENT type
is not forced to `"string"` (Python's tuple on line 175 contains `None`),
contrary to the claim's "(including the case where type is absent)". -/
theorem c6_amended (F : Frag) (props : Frag) (k : String) (spec : Frag) (tv : Json)
    (hF : lookupJ "properties" F = some (Json.obj props))
    (hk : lookupJ k props = some (Json.obj spec))
    (ht : lookupJ "type" spec = some tv)
    (hbad : isAllowedType (some tv) = false) :
    ∃ d props2 spec2, coerce_draft07 F = .ok d ∧
      lookupJ "properties" d = some (Json.obj props2) ∧
      lookupJ k props2 = some (Json.obj spec2) ∧
      lookupJ "type" spec2 = some (Json.str "string") := by
  have hwp : lookupJ "properties" (withDefaults F) = some (Json.obj props) := by
    rw [withDefaults_properties_eq, hF]
    rfl
  refine ⟨_, props.map sanitizeEntry, sanitizeSpec spec,
    coerce_eq_ok F props hwp, lookupJ_insertJ_self _ _ _, ?_, ?_⟩
  · rw [lookupJ_map_sanitizeEntry, hk]
    rfl
  · apply sanitizeSpec_type_of_bad
    rw [ht]
    exact hbad

theorem c6_amended_witness :
    (lookupJ "properties" [("properties", Json.obj [("x",
        Json.obj [("type", Json.str "binary")])])] =
      some (Json.obj [("x", Json.obj [("type", Json.str "binary")])]) ∧
      lookupJ "x" [("x", Json.obj [("type", Json.str "binary")])] =
        some (Json.obj [("type", Json.str "binary")]) ∧
      lookupJ "type" [("type", Json.str "binary")] = some (Json.str "binary") ∧
      isAllowedType (some (Json.str "binary")) = false) ∧
    (∃ d props2 spec2,
      coerce_draft07 [("properties", Json.obj [("x",
        Json.obj [("type", Json.str "binary")])])] = .ok d ∧
      lookupJ "properties" d = some (Json.obj props2) ∧
      lookupJ "x" props2 = some (Json.obj spec2) ∧
      lookupJ "type" spec2 = some (Json.str "string")) :=
  ⟨⟨rfl, rfl, rfl, rfl⟩,
    c6_amended [("properties", Json.obj [("x", Json.obj [("type", Json.str "binary")])])]
      [("x", Json.obj [("type", Json.str "binary")])] "x"
      [("type", Json.str "binary")] (Json.str "binary") rfl rfl rfl rfl⟩

/-- C6 counterexample: a property spec with NO `type` key normalizes to a
spec that still has no `type` key — the absent case is not forced to
`"string"`. -/
theorem c6_counterexample :
    ∃ d props2 spec2,
      coerce_draft07 [("properties", Json.obj [("x", Json.obj [])])] = .ok d ∧
      lookupJ "properties" d = some (Json.obj props2) ∧
      lookupJ "x" props2 = some (Json.obj spec2) ∧
      lookupJ "type" spec2 = none ∧
      lookupJ "type" spec2 ≠ some (Json.str "string") :=
  ⟨[("properties", Json.obj [("x", Json.obj [])]), ("type", Json.str "object"),
      ("required", Json.arr []), ("primaryKey", Json.arr []),
      ("additionalProperties", Json.bool false)],
    [("x", Json.obj [])], [], rfl, rfl, rfl, rfl,
    fun h => Option.noConfusion h⟩

/-- C7 (confirmed): for well-shaped fragments, `_merge_extend` returns
properties that are the union with incoming winning on collision (both
existing-only and incoming-only fields kept: pointwise, the merged map
answers with incoming's binding when present, else existing's), and
`required`/`primaryKey` that are existing's entries followed by
incoming's with falsy entries dropped and first-occurrence
deduplication. -/
theorem c7_merge_union (ex sg : Frag) (p q : Frag) (ra rb ka kb : List Json)
    (hp : lookupJ "properties" ex = some (Json.obj p))
    (hq : lookupJ "properties" sg = some (Json.obj q))
    (hra : lookupJ "required" ex = some (Json.arr ra))
    (hrb : lookupJ "required" sg = some (Json.arr rb))
    (hka : lookupJ "primaryKey" ex = some (Json.arr ka))
    (hkb : lookupJ "primaryKey" sg = some (Json.arr kb))
    (hhr : ((ra ++ rb).filter Json.toBool).all Json.hashableB = true)
    (hhk : ((ka ++ kb).filter Json.toBool).all Json.hashableB = true)
    (hnd : (q.map Prod.fst).Nodup) :
    ∃ m exAfter, merge_extend ex sg = .ok (m, exAfter) ∧
      (∃ mp, lookupJ "properties" m = some (Json.obj mp) ∧
        ∀ f : String, lookupJ f mp = ((lookupJ f q).elim (lookupJ f p) some)) ∧
      lookupJ "required" m =
        some (Json.arr (dedupFirst ((ra ++ rb).filter Json.toBool))) ∧
      lookupJ "primaryKey" m =
        some (Json.arr (dedupFirst ((ka ++ kb).filter Json.toBool))) := by
  have hur : uniq (ra ++ rb) = .ok (dedupFirst ((ra ++ rb).filter Json.toBool)) := by
    unfold uniq
    rw [if_pos hhr]
  have huk : uniq (ka ++ kb) = .ok (dedupFirst ((ka ++ kb).filter Json.toBool)) := by
    unfold uniq
    rw [if_pos hhk]
  have hme := merge_extend_eq ex sg p q ra rb ka kb _ _ hp hq hra hrb hka hkb hur huk
  refine ⟨_, _, hme, ⟨updateJ p q, ?_, fun f => lookupJ_updateJ p q f hnd⟩, ?_, ?_⟩
  · rw [lookupJ_titleStep_ne _ _ _ (by decide), lookupJ_addPropsStep_ne _ _ _ (by decide),
      lookupJ_insertJ_ne _ _ _ _ (by decide), lookupJ_insertJ_ne _ _ _ _ (by decide),
      lookupJ_insertJ_self]
  · rw [lookupJ_titleStep_ne _ _ _ (by decide), lookupJ_addPropsStep_ne _ _ _ (by decide),
      lookupJ_insertJ_ne _ _ _ _ (by decide), lookupJ_insertJ_self]
  · rw [lookupJ_titleStep_ne _ _ _ (by decide), lookupJ_addPropsStep_ne _ _ _ (by decide),
      lookupJ_insertJ_self]

theorem c7_merge_union_witness :
    (lookupJ "properties"
        [("properties", Json.obj [("name", Json.obj [("type", Json.str "string")])]),
         ("required", Json.arr [Json.str "name"]), ("primaryKey", Json.arr [])] =
      some (Json.obj [("name", Json.obj [("type", Json.str "string")])]) ∧
      ((([Json.str "name"] ++ [Json.str "age"]).filter Json.toBool).all Json.hashableB = true) ∧
      (([("name", Json.obj [("type", Json.str "integer")]),
        ("age", Json.obj [("type", Json.str "integer")])].map
          (Prod.fst (α := String) (β := Json))).Nodup)) ∧
    (∃ m exAfter,
      merge_extend
        [("properties", Json.obj [("name", Json.obj [("type", Json.str "string")])]),
         ("required", Json.arr [Json.str "name"]), ("primaryKey", Json.arr [])]
        [("properties", Json.obj [("name", Json.obj [("type", Json.str "integer")]),
           ("age", Json.obj [("type", Json.str "integer")])]),
         ("required", Json.arr [Json.str "age"]), ("primaryKey", Json.arr [])] =
        .ok (m, exAfter) ∧
      (∃ mp, lookupJ "properties" m = some (Json.obj mp) ∧
        ∀ f : String, lookupJ f mp =
          (((lookupJ f [("name", Json.obj [("type", Json.str "integer")]),
              ("age", Json.obj [("type", Json.str "integer")])]).elim
            (lookupJ f [("name", Json.obj [("type", Json.str "string")])]) some))) ∧
      lookupJ "required" m =
        some (Json.arr (dedupFirst (([Json.str "name"] ++ [Json.str "age"]).filter
          Json.toBool))) ∧
      lookupJ "primaryKey" m =
        some (Json.arr (dedupFirst ((([] : List Json) ++ []).filter Json.toBool)))) :=
  ⟨⟨rfl, rfl, by decide⟩,
    c7_merge_union
      [("properties", Json.obj [("name", Json.obj [("type", Json.str "string")])]),
       ("required", Json.arr [Json.str "name"]), ("primaryKey", Json.arr [])]
      [("properties", Json.obj [("name", Json.obj [("type", Json.str "integer")]),
         ("age", Json.obj [("type", Json.str "integer")])]),
       ("required", Json.arr [Json.str "age"]), ("primaryKey", Json.arr [])]
      _ _ _ _ _ _ rfl rfl rfl rfl rfl rfl rfl rfl (by decide)⟩

/-- C8 (amended): `suggest_definition` returns the merge output WITHOUT
a further normalization pass; the result is nevertheless a fixed point
of `_coerce_draft07` whenever both the pre-existing entity definition
and the (already normalized) suggestion are fixed points themselves.
When the existing definition is non-canonical the claim fails (see the
counterexample). -/
theorem c8_amended (ex sg m exAfter : Frag)
    (hex : coerce_draft07 ex = .ok ex)
    (hsg : coerce_draft07 sg = .ok sg)
    (hm : merge_extend ex sg = .ok (m, exAfter)) :
    coerce_draft07 m = .ok m := by
  obtain ⟨⟨pex, hpex⟩, hTex, hRex, hKex, hAex⟩ := coerce_ok_shape ex ex hex
  obtain ⟨⟨psg, hpsg⟩, hTsg, hRsg, hKsg, hAsg⟩ := coerce_ok_shape sg sg hsg
  obtain ⟨op, sp, rq, pk, hop, hsp, hshape⟩ := merge_extend_ok_inv ex sg m exAfter hm
  have hsd : setdefaultJ "properties" (Json.obj []) ex = ex :=
    setdefaultJ_of_present _ _ _ (by rw [hpex]; rfl)
  rw [hsd] at hop hshape
  have hopc : op = pex.map sanitizeEntry :=
    Json.obj.inj (Option.some.inj (hop.symm.trans hpex))
  have hspc : sp = psg.map sanitizeEntry := by
    unfold suggPropsOf at hsp
    rw [hpsg] at hsp
    exact (Except.ok.inj hsp).symm
  rw [hopc, hspc] at hshape
  have hfix : ∀ kv ∈ updateJ (pex.map sanitizeEntry) (psg.map sanitizeEntry),
      sanitizeEntry kv = kv := by
    intro kv hkv
    rcases mem_updateJ _ _ _ hkv with h | h
    · exact entries_of_map_sanitizeEntry_fixed _ _ h
    · exact entries_of_map_sanitizeEntry_fixed _ _ h
  have hPm : lookupJ "properties" m =
      some (Json.obj (updateJ (pex.map sanitizeEntry) (psg.map sanitizeEntry))) := by
    rw [hshape, lookupJ_titleStep_ne _ _ _ (by decide),
      lookupJ_addPropsStep_ne _ _ _ (by decide), lookupJ_insertJ_ne _ _ _ _ (by decide),
      lookupJ_insertJ_ne _ _ _ _ (by decide), lookupJ_insertJ_self]
  have hTm : (lookupJ "type" m).isSome = true := by
    rw [hshape, lookupJ_titleStep_ne _ _ _ (by decide),
      lookupJ_addPropsStep_ne _ _ _ (by decide), lookupJ_insertJ_ne _ _ _ _ (by decide),
      lookupJ_insertJ_ne _ _ _ _ (by decide), lookupJ_insertJ_ne _ _ _ _ (by decide)]
    exact hTex
  have hRm : (lookupJ "required" m).isSome = true := by
    rw [hshape, lookupJ_titleStep_ne _ _ _ (by decide),
      lookupJ_addPropsStep_ne _ _ _ (by decide), lookupJ_insertJ_ne _ _ _ _ (by decide),
      lookupJ_insertJ_self]
    rfl
  have hKm : (lookupJ "primaryKey" m).isSome = true := by
    rw [hshape, lookupJ_titleStep_ne _ _ _ (by decide),
      lookupJ_addPropsStep_ne _ _ _ (by decide), lookupJ_insertJ_self]
    rfl
  have hAm : (lookupJ "additionalProperties" m).isSome = true := by
    rw [hshape, lookupJ_titleStep_ne _ _ _ (by decide), lookupJ_addPropsStep_eq]
    cases hv : lookupJ "additionalProperties" sg with
    | some v => rfl
    | none =>
      show (lookupJ "additionalProperties" (insertJ "primaryKey" (Json.arr pk)
        (insertJ "required" (Json.arr rq)
          (insertJ "properties" (Json.obj (updateJ (pex.map sanitizeEntry)
            (psg.map sanitizeEntry))) ex)))).isSome = true
      rw [lookupJ_insertJ_ne _ _ _ _ (by decide), lookupJ_insertJ_ne _ _ _ _ (by decide),
        lookupJ_insertJ_ne _ _ _ _ (by decide)]
      exact hAex
  have hwd : withDefaults m = m :=
    withDefaults_fixed m hTm (by rw [hPm]; rfl) hRm hKm hAm
  unfold coerce_draft07
  rw [hwd, hPm]
  show Except.ok (insertJ "properties"
      (Json.obj ((updateJ (pex.map sanitizeEntry) (psg.map sanitizeEntry)).map
        sanitizeEntry)) m) = Except.ok m
  rw [map_fixed_of_entries _ hfix, insertJ_lookupJ_self _ _ _ hPm]

theorem c8_amended_witness :
    (coerce_draft07 [("type", Json.str "object"), ("properties", Json.obj []),
        ("required", Json.arr []), ("primaryKey", Json.arr []),
        ("additionalProperties", Json.bool false)] =
      .ok [("type", Json.str "object"), ("properties", Json.obj []),
        ("required", Json.arr []), ("primaryKey", Json.arr []),
        ("additionalProperties", Json.bool false)] ∧
      merge_extend
        [("type", Json.str "object"), ("properties", Json.obj []),
          ("required", Json.arr []), ("primaryKey", Json.arr []),
          ("additionalProperties", Json.bool false)]
        [("type", Json.str "object"), ("properties", Json.obj []),
          ("required", Json.arr []), ("primaryKey", Json.arr []),
          ("additionalProperties", Json.bool false)] =
      .ok ([("type", Json.str "object"), ("properties", Json.obj []),
          ("required", Json.arr []), ("primaryKey", Json.arr []),
          ("additionalProperties", Json.bool false)],
        [("type", Json.str "object"), ("properties", Json.obj []),
          ("required", Json.arr []), ("primaryKey", Json.arr []),
          ("additionalProperties", Json.bool false)])) ∧
    coerce_draft07 [("type", Json.str "object"), ("properties", Json.obj []),
        ("required", Json.arr []), ("primaryKey", Json.arr []),
        ("additionalProperties", Json.bool false)] =
      .ok [("type", Json.str "object"), ("properties", Json.obj []),
        ("required", Json.arr []), ("primaryKey", Json.arr []),
        ("additionalProperties", Json.bool false)] :=
  ⟨⟨rfl, rfl⟩,
    c8_amended
      [("type", Json.str "object"), ("properties", Json.obj []),
        ("required", Json.arr []), ("primaryKey", Json.arr []),
        ("additionalProperties", Json.bool false)]
      [("type", Json.str "object"), ("properties", Json.obj []),
        ("required", Json.arr []), ("primaryKey", Json.arr []),
        ("additionalProperties", Json.bool false)]
      [("type", Json.str "object"), ("properties", Json.obj []),
        ("required", Json.arr []), ("primaryKey", Json.arr []),
        ("additionalProperties", Json.bool false)]
      [("type", Json.str "object"), ("properties", Json.obj []),
        ("required", Json.arr []), ("primaryKey", Json.arr []),
        ("additionalProperties", Json.bool false)]
      rfl rfl rfl⟩

/-- C8 counterexample: extending a target whose stored definition is the
empty dict, the definition returned by `suggest_definition` lacks the
`"type"` key entirely and is NOT a fixed point of the Normalizer — no
second normalization pass runs after the merge (line 257 returns the
merge output directly). -/
theorem c8_counterexample :
    ∃ (r : SuggResult) (ctxA : Frag),
      suggest_definition_pair "tier enum: free, pro" "extend_entity"
        [("definitions", Json.obj [("users", Json.obj [])])] (some "users") =
        .ok (r, ctxA) ∧
      lookupJ "type" r.definition = none ∧
      coerce_draft07 r.definition ≠ .ok r.definition := by
  refine ⟨{ mode := "extend_entity", definition_key := "users", definition :=
      [("properties", Json.obj [
          ("tier", Json.obj [("type", Json.str "string"),
            ("enum", Json.arr [Json.str "free", Json.str "pro"])]),
          ("enum", Json.obj [("type", Json.str "array"),
            ("items", Json.obj [("type", Json.str "string"),
              ("enum", Json.arr [Json.str "free", Json.str "pro"])])])]),
        ("required", Json.arr []), ("primaryKey", Json.arr []),
        ("additionalProperties", Json.bool false), ("title", Json.str "User")] },
    [("definitions", Json.obj [("users", Json.obj [])])], rfl, rfl, ?_⟩
  intro h
  exact Option.noConfusion (congrArg (lookupJ "type") (Except.ok.inj h))

/-- C9 (amended): `_merge_extend` itself replaces `additionalProperties`
only when the suggestion has the key; but in the extend pipeline the
suggestion has ALWAYS passed through `_coerce_draft07`, which
materializes `additionalProperties` (default `false`), so the returned
definition's `additionalProperties` always equals the normalized
candidate's value — the existing entity's value is never what survives
unless the candidate's normalized value coincides with it. -/
theorem c9_amended (cand ex m : Frag) (h : extend_pipeline cand ex = .ok m) :
    ∃ d v, coerce_draft07 cand = .ok d ∧
      lookupJ "additionalProperties" d = some v ∧
      lookupJ "additionalProperties" m = some v := by
  unfold extend_pipeline at h
  cases hc : coerce_draft07 cand with
  | error e =>
    simp only [hc] at h
    exact Except.noConfusion h
  | ok d =>
    simp only [hc] at h
    cases hm : merge_extend ex d with
    | error e =>
      simp only [hm] at h
      exact Except.noConfusion h
    | ok pr =>
      obtain ⟨mm, ea⟩ := pr
      simp only [hm] at h
      have hmm : mm = m := Except.ok.inj h
      subst hmm
      obtain ⟨_, _, _, _, hA⟩ := coerce_ok_shape cand d hc
      obtain ⟨v, hv⟩ := Option.isSome_iff_exists.mp hA
      obtain ⟨op, sp, rq, pk, _, _, hshape⟩ := merge_extend_ok_inv ex d mm ea hm
      refine ⟨d, v, rfl, hv, ?_⟩
      rw [hshape, lookupJ_titleStep_ne _ _ _ (by decide), lookupJ_addPropsStep_eq, hv]
      rfl

theorem c9_amended_witness :
    extend_pipeline ([] : Frag) ([] : Frag) =
      .ok [("properties", Json.obj []), ("required", Json.arr []),
        ("primaryKey", Json.arr []), ("additionalProperties", Json.bool false)] ∧
    (∃ d v, coerce_draft07 ([] : Frag) = .ok d ∧
      lookupJ "additionalProperties" d = some v ∧
      lookupJ "additionalProperties"
        [("properties", Json.obj []), ("required", Json.arr []),
          ("primaryKey", Json.arr []), ("additionalProperties", Json.bool false)] =
        some v) :=
  ⟨rfl, c9_amended [] []
    [("properties", Json.obj []), ("required", Json.arr []),
      ("primaryKey", Json.arr []), ("additionalProperties", Json.bool false)] rfl⟩

/-- C9 counterexample: a candidate that did NOT explicitly set
`additionalProperties`, merged into an existing entity with
`additionalProperties: true`, yields a returned definition with
`additionalProperties: false` — the existing value is not preserved,
because normalization materialized the key before the merge. -/
theorem c9_counterexample :
    extend_pipeline [("properties", Json.obj [])]
        [("properties", Json.obj []), ("additionalProperties", Json.bool true)] =
      .ok [("properties", Json.obj []), ("additionalProperties", Json.bool false),
        ("required", Json.arr []), ("primaryKey", Json.arr [])] ∧
    lookupJ "additionalProperties"
      [("properties", Json.obj []), ("additionalProperties", Json.bool false),
        ("required", Json.arr []), ("primaryKey", Json.arr [])] =
      some (Json.bool false) ∧
    lookupJ "additionalProperties"
      [("properties", Json.obj []), ("additionalProperties", Json.bool true)] =
      some (Json.bool true) ∧
    (some (Json.bool false) : Option Json) ≠ some (Json.bool true) :=
  ⟨rfl, rfl, rfl,
    fun h => Bool.noConfusion (Json.bool.inj (Option.some.inj h))⟩

/-- C10 (confirmed): a non-dict value sitting in the properties mapping
is skipped by the sanitization loop (`continue`, line 172-173) and
survives normalization unchanged. -/
theorem c10_nonobject_specs_unchanged (F : Frag) (props : Frag) (k : String) (v : Json)
    (hF : lookupJ "properties" F = some (Json.obj props))
    (hk : lookupJ k props = some v)
    (hno : ∀ kvs : Frag, v ≠ Json.obj kvs) :
    ∃ d props2, coerce_draft07 F = .ok d ∧
      lookupJ "properties" d = some (Json.obj props2) ∧
      lookupJ k props2 = some v := by
  have hwp : lookupJ "properties" (withDefaults F) = some (Json.obj props) := by
    rw [withDefaults_properties_eq, hF]
    rfl
  refine ⟨_, props.map sanitizeEntry, coerce_eq_ok F props hwp,
    lookupJ_insertJ_self _ _ _, ?_⟩
  rw [lookupJ_map_sanitizeEntry, hk]
  cases v with
  | obj kvs => exact absurd rfl (hno kvs)
  | null => rfl
  | bool b => rfl
  | num n => rfl
  | str s => rfl
  | arr xs => rfl

theorem c10_witness :
    (lookupJ "properties" [("properties", Json.obj [("x", Json.str "oops")])] =
      some (Json.obj [("x", Json.str "oops")]) ∧
      lookupJ "x" [("x", Json.str "oops")] = some (Json.str "oops") ∧
      ∀ kvs : Frag, Json.str "oops" ≠ Json.obj kvs) ∧
    (∃ d props2,
      coerce_draft07 [("properties", Json.obj [("x", Json.str "oops")])] = .ok d ∧
      lookupJ "properties" d = some (Json.obj props2) ∧
      lookupJ "x" props2 = some (Json.str "oops")) :=
  ⟨⟨rfl, rfl, fun _ h => Json.noConfusion h⟩,
    c10_nonobject_specs_unchanged [("properties", Json.obj [("x", Json.str "oops")])]
      [("x", Json.str "oops")] "x" (Json.str "oops") rfl rfl
      (fun _ h => Json.noConfusion h)⟩

end SchemaGui

